import Mathlib

/-! Sidecar-injection admission webhook (`pkg/webhook/mutatingwebhook.go`).

A shallow embedding of the mutating webhook that injects the gcsfuse sidecar
container: the request/limit resolver `populateResource`, the configuration
resolver `prepareConfig`, the placeholder scan `parseSidecarContainerImage`
and the admission handler `Handle`, followed by the properties proved of them.

Go values are embedded as follows.

* `resource.Quantity` is a record with the four fields of the Go struct; the
  code under study only reads `Format` and copies whole values.
* A `map[string]string` is an association list in which a key is bound by the
  first pair that carries it.
* A function that returns `(T, error)` returns `Except String T`.
* The pod that `Handle` holds through a pointer is passed explicitly: functions
  that mutate it return the new pod, and `Handle` returns, with its response,
  the pod as it stands when `Handle` returns.
* Functions of other packages and of files other than `mutatingwebhook.go`
  are fields of `Externals`.
-/

set_option autoImplicit false

namespace Webhook

/-! ## Quantities -/

/-- The Go type `resource.Quantity`: `i` is the `int64Amount` (value and
scale), `d` the optional arbitrary-precision amount (unscaled value and
scale), `s` the cached string form and `Format` the embedded `Format` string.
A quantity whose `Format` is the empty string counts as unset. -/
structure Quantity where
  i : Int × Int
  d : Option (Int × Int)
  s : String
  Format : String
  deriving DecidableEq, Repr

/-- The zero value `resource.Quantity{}`. -/
def Quantity.zero : Quantity := ⟨(0, 0), none, "", ""⟩

instance : Inhabited Quantity := ⟨Quantity.zero⟩

/-- The closure `populateResource` of `prepareConfig`. The two pointers `rq`
and `lq` are passed as values and their final contents are returned, request
first. The three `if` statements run one after the other, each on the values
left by the one before. -/
def populateResource (rq lq drq dlq : Quantity) : Quantity × Quantity :=
  let p : Quantity × Quantity :=
    if rq.Format == "" && lq.Format == "" then (drq, dlq) else (rq, lq)
  let rq := p.1
  let lq := p.2
  let lq := if lq.Format == "" then rq else lq
  let rq := if rq.Format == "" then lq else rq
  (rq, lq)

/-! ## Strings and maps -/

/-- The rune mapping of `strings.ToLower` on ASCII: `A`..`Z` go to `a`..`z`.
Go also lower-cases letters outside ASCII; the only such runes whose lower
case is an ASCII letter are U+0130 (to `i`) and U+212A (to `k`), so whether the
result equals `"true"` or `"false"` is decided by the ASCII mapping alone. -/
def toLowerRune (c : Char) : Char :=
  if 'A' ≤ c ∧ c ≤ 'Z' then Char.ofNat (c.toNat + 32) else c

/-- Go `strings.ToLower`, see `toLowerRune`. -/
def strings_ToLower (s : String) : String :=
  String.mk (s.data.map toLowerRune)

/-- A Go `map[string]string`, such as `pod.Annotations`: an association list
in which a key is bound by the first pair that carries it. The empty list
stands for the empty map and for the nil map alike. -/
abbrev StringMap := List (String × String)

/-- The Go map index expression `v, ok := m[key]`. -/
def StringMap.get (m : StringMap) (key : String) : Option String :=
  match m with
  | [] => none
  | (k, v) :: rest => if k = key then some v else StringMap.get rest key

/-- Go string order (bytewise on UTF-8, which is the order of code points). -/
def keyLE (a b : String) : Prop := a.data ≤ b.data

instance : DecidableRel keyLE :=
  fun a b => inferInstanceAs (Decidable (a.data ≤ b.data))

/-- The keys of a map, each once, in ascending order. -/
def StringMap.sortedKeys (m : StringMap) : List String :=
  List.insertionSort keyLE (m.map Prod.fst).dedup

/-- What `json.Marshal` writes for a `map[string]string`: one member per key
of the map, in ascending key order. It cannot fail on such a map, so the
error branch of the call in `prepareConfig` is not reachable and the result is
the member list itself. -/
def json_Marshal (m : StringMap) : List (String × String) :=
  m.sortedKeys.filterMap (fun k => (m.get k).map (fun v => (k, v)))

/-! ## Configuration -/

/-- Modelled from the spec: the declaration of the type `Config` is in a file
of the package that is not at hand. The spec gives it a container image, an
image pull policy and a request and a limit for each of CPU, memory and
ephemeral storage; the field names are those `Handle` and `prepareConfig`
use. -/
structure Config where
  ContainerImage : String
  ImagePullPolicy : String
  CPULimit : Quantity
  MemoryLimit : Quantity
  EphemeralStorageLimit : Quantity
  CPURequest : Quantity
  MemoryRequest : Quantity
  EphemeralStorageRequest : Quantity
  deriving DecidableEq, Repr

/-- The six resource fields of `Config`. -/
inductive ResourceField where
  | CPULimit
  | MemoryLimit
  | EphemeralStorageLimit
  | CPURequest
  | MemoryRequest
  | EphemeralStorageRequest
  deriving DecidableEq, Repr

def AnnotationGcsfuseVolumeEnableKey : String := "gke-gcsfuse/volumes"
def annotationGcsfuseSidecarCPULimitKey : String := "gke-gcsfuse/cpu-limit"
def annotationGcsfuseSidecarMemoryLimitKey : String := "gke-gcsfuse/memory-limit"
def annotationGcsfuseSidecarEphemeralStorageLimitKey : String :=
  "gke-gcsfuse/ephemeral-storage-limit"
def annotationGcsfuseSidecarCPURequestKey : String := "gke-gcsfuse/cpu-request"
def annotationGcsfuseSidecarMemoryRequestKey : String := "gke-gcsfuse/memory-request"
def annotationGcsfuseSidecarEphemeralStorageRequestKey : String :=
  "gke-gcsfuse/ephemeral-storage-request"

/-- Modelled from the spec: the JSON name of each resource field of `Config`
(its struct tag, in the declaration that is not at hand) is the annotation key
of that resource; the image and the pull policy have no JSON name. -/
def ResourceField.jsonName : ResourceField → String
  | .CPULimit => annotationGcsfuseSidecarCPULimitKey
  | .MemoryLimit => annotationGcsfuseSidecarMemoryLimitKey
  | .EphemeralStorageLimit => annotationGcsfuseSidecarEphemeralStorageLimitKey
  | .CPURequest => annotationGcsfuseSidecarCPURequestKey
  | .MemoryRequest => annotationGcsfuseSidecarMemoryRequestKey
  | .EphemeralStorageRequest => annotationGcsfuseSidecarEphemeralStorageRequestKey

def ResourceField.all : List ResourceField :=
  [.CPULimit, .MemoryLimit, .EphemeralStorageLimit,
   .CPURequest, .MemoryRequest, .EphemeralStorageRequest]

def Config.get (c : Config) : ResourceField → Quantity
  | .CPULimit => c.CPULimit
  | .MemoryLimit => c.MemoryLimit
  | .EphemeralStorageLimit => c.EphemeralStorageLimit
  | .CPURequest => c.CPURequest
  | .MemoryRequest => c.MemoryRequest
  | .EphemeralStorageRequest => c.EphemeralStorageRequest

def Config.set (c : Config) (f : ResourceField) (q : Quantity) : Config :=
  match f with
  | .CPULimit => { c with CPULimit := q }
  | .MemoryLimit => { c with MemoryLimit := q }
  | .EphemeralStorageLimit => { c with EphemeralStorageLimit := q }
  | .CPURequest => { c with CPURequest := q }
  | .MemoryRequest => { c with MemoryRequest := q }
  | .EphemeralStorageRequest => { c with EphemeralStorageRequest := q }

/-- The rune folding under which `encoding/json` compares an object key with a
field name when no field has exactly that name: ASCII letters fold to upper
case, and so do the two runes outside ASCII that fold to an ASCII letter,
U+017F (long s) and U+212A (Kelvin sign). No other rune can take part in a
match with the ASCII field names of `Config`. -/
def foldRune (c : Char) : Char :=
  if 'a' ≤ c ∧ c ≤ 'z' then Char.ofNat (c.toNat - 32)
  else if c = Char.ofNat 0x17F then 'S'
  else if c = Char.ofNat 0x212A then 'K'
  else c

/-- The folded form of a key, see `foldRune`. -/
def foldName (s : String) : String :=
  String.mk (s.data.map foldRune)

/-- The field of `Config` that `json.Unmarshal` stores the member `key` in: the
field with exactly that JSON name if there is one, else the first field whose
JSON name equals the key up to case folding, else none (the member is
skipped). -/
def lookupField (key : String) : Option ResourceField :=
  match ResourceField.all.find? (fun f => f.jsonName == key) with
  | some f => some f
  | none => ResourceField.all.find? (fun f => foldName f.jsonName == foldName key)

/-- The call `json.Unmarshal(jsonData, config)` on the members written by
`json_Marshal`, in their order. Each member whose key names a resource field
is handed to `Quantity.UnmarshalJSON`, here `unmarshalQuantity` applied to the
annotation value; its error ends the decoding, its result is stored in the
field. Members with other keys are skipped. -/
def json_Unmarshal (unmarshalQuantity : String → Except String Quantity) :
    List (String × String) → Config → Except String Config
  | [], config => .ok config
  | (key, value) :: rest, config =>
    match lookupField key with
    | none => json_Unmarshal unmarshalQuantity rest config
    | some f =>
      match unmarshalQuantity value with
      | .error err => .error err
      | .ok q => json_Unmarshal unmarshalQuantity rest (config.set f q)

/-! ## Pods, requests and responses -/

/-- The Go type `corev1.Container`, with the two fields the webhook reads and
one field standing for all the others. -/
structure Container where
  Name : String
  Image : String
  Other : String
  deriving DecidableEq, Repr

/-- The Go type `corev1.Volume`. -/
structure Volume where
  Name : String
  VolumeSource : String
  deriving DecidableEq, Repr

/-- The Go type `corev1.PodSpec`. -/
structure PodSpec where
  Containers : List Container
  Volumes : List Volume
  deriving DecidableEq, Repr

/-- The Go type `corev1.Pod`. -/
structure Pod where
  Name : String
  GenerateName : String
  Namespace : String
  Annotations : StringMap
  Spec : PodSpec
  deriving DecidableEq, Repr

/-- The Go type `admission.Request`; `Operation` is a string type in Go. -/
structure Request where
  Name : String
  Namespace : String
  Operation : String
  ObjectRaw : List Nat
  deriving DecidableEq, Repr

/-- The constant `v1.Create`. -/
def v1_Create : String := "CREATE"

/-- The constant `v1.Update`. -/
def v1_Update : String := "UPDATE"

/-- The constant `http.StatusOK`. -/
def http_StatusOK : Nat := 200

/-- The constant `http.StatusBadRequest`. -/
def http_StatusBadRequest : Nat := 400

/-- One operation of a JSON patch. -/
structure JSONPatchOperation where
  Operation : String
  Path : String
  Value : String
  deriving DecidableEq, Repr

/-- The Go type `admission.Response`: whether the request is allowed, the
status code of its result and the patch. The text of the result message is
left out. -/
structure Response where
  Allowed : Bool
  Code : Nat
  Patches : List JSONPatchOperation
  deriving DecidableEq, Repr

/-- The function `admission.Allowed`: allowed, status 200, no patch. -/
def admission_Allowed : Response :=
  { Allowed := true, Code := http_StatusOK, Patches := [] }

/-- The function `admission.Errored`: not allowed, the given status, no
patch. -/
def admission_Errored (code : Nat) : Response :=
  { Allowed := false, Code := code, Patches := [] }

/-- The constant `SidecarContainerName`, declared in another file of the
package; the comment above `parseSidecarContainerImage` gives its value. -/
def SidecarContainerName : String := "gke-gcsfuse-sidecar"

/-- The functions `Handle` and its helpers call that are defined outside
`mutatingwebhook.go`. -/
structure Externals where
  /-- The function `ValidatePodHasSidecarContainerInjected`. -/
  ValidatePodHasSidecarContainerInjected : Pod → Bool → Bool
  /-- The function `GetSidecarContainerSpec`. -/
  GetSidecarContainerSpec : Config → Container
  /-- The function `GetSidecarContainerVolumeSpec`. -/
  GetSidecarContainerVolumeSpec : List Volume → List Volume
  /-- The error result of `parsers.ParseImageName`. -/
  ParseImageName : String → Except String Unit
  /-- The method `Quantity.UnmarshalJSON` on the JSON form of a string. -/
  UnmarshalQuantity : String → Except String Quantity
  /-- The call `json.Marshal(pod)`. -/
  MarshalPod : Pod → Except String (List Nat)
  /-- The function `admission.PatchResponseFromRaw`. -/
  PatchResponseFromRaw : List Nat → List Nat → Response
  /-- The canonical string form of a quantity, the number followed by the
  suffix, which the method `Quantity.String` computes with
  `CanonicalizeBytes` when the quantity has no cached string. -/
  CanonicalString : Quantity → String

/-- The Go type `SidecarInjector`: the default configuration and the decoder
(`si.Decoder.Decode`, which fills the pod or fails). -/
structure SidecarInjector where
  Config : Config
  Decoder : Request → Except String Pod

/-! ## The webhook -/

/-- The method `prepareConfig`. The new configuration takes the image and the
pull policy of the default configuration, its six quantities start as zero
values, the annotations are decoded into it and `populateResource` then runs
on CPU, memory and ephemeral storage in turn. An error stands for the result
`nil, err`. -/
def prepareConfig (ext : Externals) (si : SidecarInjector) (annotations : StringMap) :
    Except String Config :=
  let config : Config :=
    { ContainerImage := si.Config.ContainerImage
      ImagePullPolicy := si.Config.ImagePullPolicy
      CPULimit := Quantity.zero
      MemoryLimit := Quantity.zero
      EphemeralStorageLimit := Quantity.zero
      CPURequest := Quantity.zero
      MemoryRequest := Quantity.zero
      EphemeralStorageRequest := Quantity.zero }
  let jsonData := json_Marshal annotations
  match json_Unmarshal ext.UnmarshalQuantity jsonData config with
  | .error err =>
    .error ("failed to parse sidecar container resource allocation from pod annotations: "
      ++ err)
  | .ok config =>
    let cpu := populateResource config.CPURequest config.CPULimit
      si.Config.CPURequest si.Config.CPULimit
    let config := { config with CPURequest := cpu.1, CPULimit := cpu.2 }
    let memory := populateResource config.MemoryRequest config.MemoryLimit
      si.Config.MemoryRequest si.Config.MemoryLimit
    let config := { config with MemoryRequest := memory.1, MemoryLimit := memory.2 }
    let storage := populateResource config.EphemeralStorageRequest
      config.EphemeralStorageLimit
      si.Config.EphemeralStorageRequest si.Config.EphemeralStorageLimit
    let config :=
      { config with EphemeralStorageRequest := storage.1, EphemeralStorageLimit := storage.2 }
    .ok config

/-- The loop of `parseSidecarContainerImage` from position `i` on, `cs` being
the containers not yet visited and `st` the variables `image` and `index`. -/
def scanContainers (ext : Externals) :
    List Container → Nat → String × Nat → Except String (String × Nat)
  | [], _, st => .ok st
  | c :: cs, i, st =>
    if c.Name = SidecarContainerName then
      match ext.ParseImageName c.Image with
      | .error err => .error ("could not parse input image: " ++ c.Image ++ ", error: " ++ err)
      | .ok _ => scanContainers ext cs (i + 1) (c.Image, i)
    else scanContainers ext cs (i + 1) st

/-- The statements `copy(s[index:], s[index+1:])` and `s = s[:len(s)-1]`: the
elements after position `index` move one place down and the slice loses its
last place. -/
def removeAt (s : List Container) (index : Nat) : List Container :=
  (s.take index ++ s.drop (index + 1) ++ s.drop (s.length - 1)).take (s.length - 1)

/-- The function `parseSidecarContainerImage`: the image it returns, with the
pod as the call leaves it. On an error the pod has not been written to. -/
def parseSidecarContainerImage (ext : Externals) (pod : Pod) : Except String (String × Pod) :=
  match scanContainers ext pod.Spec.Containers 0 ("", 0) with
  | .error err => .error err
  | .ok (image, index) =>
    if image ≠ "" then
      .ok (image, { pod with Spec := { pod.Spec with
        Containers := removeAt pod.Spec.Containers index } })
    else .ok (image, pod)

/-- The method `Quantity.String`, for what it leaves in its receiver: when the
cached string `s` is empty it is set to the canonical string form, otherwise
the quantity stays as it is. -/
def Quantity_String (ext : Externals) (q : Quantity) : Quantity :=
  if q.s = "" then { q with s := ext.CanonicalString q } else q

/-- The call of `klog.Infof` that `Handle` makes before it mutates the pod, for
what it leaves in the configuration: the six quantities are passed by pointer
and formatted with `%q`, which calls `String` on each of them, so each gets its
cached string. -/
def logMutation (ext : Externals) (config : Config) : Config :=
  { config with
    CPURequest := Quantity_String ext config.CPURequest
    CPULimit := Quantity_String ext config.CPULimit
    MemoryRequest := Quantity_String ext config.MemoryRequest
    MemoryLimit := Quantity_String ext config.MemoryLimit
    EphemeralStorageRequest := Quantity_String ext config.EphemeralStorageRequest
    EphemeralStorageLimit := Quantity_String ext config.EphemeralStorageLimit }

/-- What a call of `Handle` leaves: the response it returns and the pod it
worked on, as that pod stands at the return (`none` when the request could not
be decoded into a pod). On the path that builds a patch, this is the pod that
was marshalled. -/
structure HandleResult where
  response : Response
  pod : Option Pod
  deriving DecidableEq, Repr

/-- The method `Handle`. Of the logging calls only the one before the mutation
has an effect on the values at hand, see `logMutation`. -/
def Handle (ext : Externals) (si : SidecarInjector) (req : Request) : HandleResult :=
  match si.Decoder req with
  | .error _ => ⟨admission_Errored http_StatusBadRequest, none⟩
  | .ok pod =>
    if req.Operation ≠ v1_Create then ⟨admission_Allowed, some pod⟩
    else
      match pod.Annotations.get AnnotationGcsfuseVolumeEnableKey with
      | none => ⟨admission_Allowed, some pod⟩
      | some enableGcsfuseVolumes =>
        if strings_ToLower enableGcsfuseVolumes = "false" then ⟨admission_Allowed, some pod⟩
        else if strings_ToLower enableGcsfuseVolumes = "true" then
          if ext.ValidatePodHasSidecarContainerInjected pod true then
            ⟨admission_Allowed, some pod⟩
          else
            match prepareConfig ext si pod.Annotations with
            | .error _ => ⟨admission_Errored http_StatusBadRequest, some pod⟩
            | .ok config =>
              match parseSidecarContainerImage ext pod with
              | .error _ => ⟨admission_Errored http_StatusBadRequest, some pod⟩
              | .ok (image, pod) =>
                let config :=
                  if image ≠ "" then { config with ContainerImage := image } else config
                let config := logMutation ext config
                let pod := { pod with Spec := { pod.Spec with
                  Containers := ext.GetSidecarContainerSpec config :: pod.Spec.Containers } }
                let pod := { pod with Spec := { pod.Spec with
                  Volumes := ext.GetSidecarContainerVolumeSpec pod.Spec.Volumes
                    ++ pod.Spec.Volumes } }
                match ext.MarshalPod pod with
                | .error _ => ⟨admission_Errored http_StatusBadRequest, some pod⟩
                | .ok marshaledPod =>
                  ⟨ext.PatchResponseFromRaw req.ObjectRaw marshaledPod, some pod⟩
        else ⟨admission_Errored http_StatusBadRequest, some pod⟩

/-! ## Resource dimensions -/

/-- The three resource dimensions. -/
inductive Dimension where
  | CPU
  | Memory
  | EphemeralStorage
  deriving DecidableEq, Repr

/-- The request field of a dimension. -/
def Dimension.requestField : Dimension → ResourceField
  | .CPU => .CPURequest
  | .Memory => .MemoryRequest
  | .EphemeralStorage => .EphemeralStorageRequest

/-- The limit field of a dimension. -/
def Dimension.limitField : Dimension → ResourceField
  | .CPU => .CPULimit
  | .Memory => .MemoryLimit
  | .EphemeralStorage => .EphemeralStorageLimit

/-- The annotations supply a value for the field `f`: some key of the map is
one that `json.Unmarshal` stores in `f`. -/
def supplies (annotations : StringMap) (f : ResourceField) : Prop :=
  ∃ kv ∈ annotations, lookupField kv.1 = some f

instance (annotations : StringMap) (f : ResourceField) : Decidable (supplies annotations f) :=
  inferInstanceAs (Decidable (∃ kv ∈ annotations, lookupField kv.1 = some f))

/-! ## Sample values -/

/-- The quantity `100m`. -/
def q100m : Quantity := ⟨(100, -3), none, "", "DecimalSI"⟩

/-- The quantity `250m`. -/
def q250m : Quantity := ⟨(250, -3), none, "", "DecimalSI"⟩

/-- The quantity `1Gi`. -/
def q1Gi : Quantity := ⟨(1073741824, 0), none, "", "BinarySI"⟩

/-- A quantity parser that knows three strings. -/
def sampleUnmarshalQuantity (s : String) : Except String Quantity :=
  if s = "100m" then .ok q100m
  else if s = "250m" then .ok q250m
  else if s = "1Gi" then .ok q1Gi
  else .error "quantities must match the regular expression"

/-- An image check that accepts every image but the empty one and `"???"`. -/
def sampleParseImageName (s : String) : Except String Unit :=
  if s = "" ∨ s = "???" then .error "invalid reference format" else .ok ()

/-- The sidecar container built from a configuration; its last field shows
the pull policy and the cached strings of the CPU request and limit. -/
def sampleSidecarContainer (c : Config) : Container :=
  ⟨SidecarContainerName, c.ContainerImage,
    c.ImagePullPolicy ++ " " ++ c.CPURequest.s ++ " " ++ c.CPULimit.s⟩

/-- The canonical string form of the three sample quantities. -/
def sampleCanonicalString (q : Quantity) : String :=
  if q.i = (100, -3) then "100m"
  else if q.i = (250, -3) then "250m"
  else if q.i = (1073741824, 0) then "1Gi"
  else "0"

/-- The volume of the sidecar container. -/
def sampleSidecarVolume : Volume := ⟨"gke-gcsfuse-tmp", "emptyDir"⟩

/-- Sample collaborators: a pod counts as injected when its first container
carries the sidecar name and the sample volume is among its volumes. -/
def sampleExternals : Externals :=
  { ValidatePodHasSidecarContainerInjected := fun pod _ =>
      (match pod.Spec.Containers with
       | [] => false
       | c :: _ => decide (c.Name = SidecarContainerName)) &&
      decide (sampleSidecarVolume ∈ pod.Spec.Volumes)
    GetSidecarContainerSpec := sampleSidecarContainer
    GetSidecarContainerVolumeSpec := fun _ => [sampleSidecarVolume]
    ParseImageName := sampleParseImageName
    UnmarshalQuantity := sampleUnmarshalQuantity
    MarshalPod := fun pod => .ok [pod.Spec.Containers.length, pod.Spec.Volumes.length]
    PatchResponseFromRaw := fun original current =>
      { Allowed := true, Code := 0,
        Patches := if original = current then [] else [⟨"replace", "/spec", ""⟩] }
    CanonicalString := sampleCanonicalString }

/-- A default configuration whose requests differ from its limits. -/
def sampleConfig : Config :=
  { ContainerImage := "gcsfuse:v1"
    ImagePullPolicy := "IfNotPresent"
    CPULimit := q250m
    MemoryLimit := q1Gi
    EphemeralStorageLimit := q1Gi
    CPURequest := q100m
    MemoryRequest := q1Gi
    EphemeralStorageRequest := q1Gi }

/-- A default configuration whose six quantities are all zero values. -/
def unsetConfig : Config :=
  { ContainerImage := "gcsfuse:v1"
    ImagePullPolicy := "IfNotPresent"
    CPULimit := Quantity.zero
    MemoryLimit := Quantity.zero
    EphemeralStorageLimit := Quantity.zero
    CPURequest := Quantity.zero
    MemoryRequest := Quantity.zero
    EphemeralStorageRequest := Quantity.zero }

/-- A pod with one workload container and one volume. -/
def samplePod (annotations : StringMap) : Pod :=
  { Name := "pod"
    GenerateName := ""
    Namespace := "default"
    Annotations := annotations
    Spec := { Containers := [⟨"workload", "busybox", ""⟩], Volumes := [⟨"data", "csi"⟩] } }

/-- An injector over the given defaults whose decoder rejects every
request. -/
def sampleInjector (config : Config) : SidecarInjector :=
  { Config := config, Decoder := fun _ => .error "there is no content to decode" }

/-- An injector over the given defaults whose decoder reads the given pod out
of every request. -/
def podInjector (config : Config) (pod : Pod) : SidecarInjector :=
  { Config := config, Decoder := fun _ => .ok pod }

/-- A create request. -/
def createRequest : Request := ⟨"pod", "default", v1_Create, [1]⟩

/-- An update request. -/
def updateRequest : Request := ⟨"pod", "default", v1_Update, [1]⟩

/-- Annotations that enable injection and set the memory limit only. -/
def sampleAnnotations : StringMap :=
  [("gke-gcsfuse/volumes", "true"), ("gke-gcsfuse/memory-limit", "1Gi")]

/-- What `prepareConfig` makes of `sampleAnnotations` over `sampleConfig`. -/
def sampleResolved : Config :=
  { sampleConfig with MemoryRequest := q1Gi, MemoryLimit := q1Gi }

/-- A pod that already carries the sidecar container and its volume, with a
resource annotation that does not parse and a sidecar image that is not a valid
reference. -/
def injectedPod : Pod :=
  { Name := "pod"
    GenerateName := ""
    Namespace := "default"
    Annotations := [("gke-gcsfuse/volumes", "True"), ("gke-gcsfuse/cpu-limit", "lots")]
    Spec :=
      { Containers := [⟨SidecarContainerName, "???", ""⟩, ⟨"workload", "busybox", ""⟩]
        Volumes := [sampleSidecarVolume, ⟨"data", "csi"⟩] } }

/-- A pod with a placeholder container between two workload containers. -/
def placeholderPod : Pod :=
  { Name := "pod"
    GenerateName := ""
    Namespace := "default"
    Annotations := sampleAnnotations
    Spec :=
      { Containers := [⟨"first", "busybox", ""⟩, ⟨SidecarContainerName, "repo/img:tag", ""⟩,
          ⟨"second", "nginx", ""⟩]
        Volumes := [⟨"data", "csi"⟩] } }

/-- The pod `placeholderPod` once the placeholder is taken out. -/
def strippedPod : Pod :=
  { placeholderPod with Spec := { placeholderPod.Spec with
      Containers := [⟨"first", "busybox", ""⟩, ⟨"second", "nginx", ""⟩] } }

/-- The configuration of `Handle` after the image override: the resolved
configuration, with the image replaced when the placeholder gave one. -/
def overrideImage (config : Config) (image : String) : Config :=
  if image ≠ "" then { config with ContainerImage := image } else config

/-- The pod after the two `append` statements of `Handle`, `pod` being the pod
that `parseSidecarContainerImage` left. -/
def mutatedPod (ext : Externals) (config : Config) (pod : Pod) : Pod :=
  { pod with Spec := { pod.Spec with
      Containers := ext.GetSidecarContainerSpec config :: pod.Spec.Containers
      Volumes := ext.GetSidecarContainerVolumeSpec pod.Spec.Volumes ++ pod.Spec.Volumes } }

/-- A pod whose placeholder container has an image that is not a valid
reference. -/
def invalidImagePod : Pod :=
  { placeholderPod with Spec := { placeholderPod.Spec with
      Containers := [⟨"first", "busybox", ""⟩, ⟨SidecarContainerName, "???", ""⟩] } }

/-- A pod with two placeholder containers. -/
def duplicatePod : Pod :=
  { placeholderPod with Spec := { placeholderPod.Spec with
      Containers := [⟨SidecarContainerName, "old/img:1", ""⟩, ⟨"first", "busybox", ""⟩,
        ⟨SidecarContainerName, "new/img:2", ""⟩, ⟨"second", "nginx", ""⟩] } }

/-- A pod with two placeholder containers, the last with an empty image. -/
def emptyLastPod : Pod :=
  { placeholderPod with Spec := { placeholderPod.Spec with
      Containers := [⟨SidecarContainerName, "old/img:1", ""⟩, ⟨"first", "busybox", ""⟩,
        ⟨SidecarContainerName, "", ""⟩] } }

/-- The sample collaborators with an image check that accepts the empty
image and rejects `"???"` only. -/
def lenientExternals : Externals :=
  { sampleExternals with
    ParseImageName := fun s => if s = "???" then .error "invalid reference format" else .ok () }

/-- The sample collaborators with a `json.Marshal` that fails on every pod. -/
def failingMarshalExternals : Externals :=
  { sampleExternals with MarshalPod := fun _ => .error "unsupported value" }

/-- The constant `http.StatusInternalServerError`. -/
def http_StatusInternalServerError : Nat := 500

/-- The sample collaborators with a `PatchResponseFromRaw` that cannot compute
the patch and answers, as the library function does then, with status 500. -/
def failingPatchExternals : Externals :=
  { sampleExternals with
    PatchResponseFromRaw := fun _ _ => admission_Errored http_StatusInternalServerError }

/-- A pod whose memory limit annotation does not parse. -/
def malformedPod : Pod :=
  samplePod [("gke-gcsfuse/volumes", "true"), ("gke-gcsfuse/cpu-limit", "250m"),
    ("gke-gcsfuse/memory-limit", "lots")]

/-- Annotations that set the memory limit as `sampleAnnotations` does, disable
injection and carry a key of another tool. -/
def otherAnnotations : StringMap :=
  [("example.com/owner", "lots"), ("gke-gcsfuse/memory-limit", "1Gi"),
   ("gke-gcsfuse/volumes", "false")]

/-- Annotations whose only key is the CPU limit key in another case. -/
def foldedAnnotations : StringMap := [("gke-gcsfuse/CPU-limit", "lots")]

/-- Annotations whose only key is the CPU limit key in another case, with a
value that parses. -/
def foldedValidAnnotations : StringMap := [("gke-gcsfuse/CPU-limit", "1Gi")]

/-! ## Decoding the annotations -/

theorem StringMap.mem_of_get {m : StringMap} {k v : String} (h : m.get k = some v) :
    (k, v) ∈ m := by
  induction m with
  | nil => simp [StringMap.get] at h
  | cons kv rest ih =>
    obtain ⟨k', v'⟩ := kv
    by_cases hk : k' = k
    · simp [StringMap.get, hk] at h
      simp [hk, h]
    · simp [StringMap.get, hk] at h
      exact List.mem_cons_of_mem _ (ih h)

theorem StringMap.get_isSome_of_mem {m : StringMap} {k v : String} (h : (k, v) ∈ m) :
    ∃ w, m.get k = some w := by
  induction m with
  | nil => simp at h
  | cons kv rest ih =>
    obtain ⟨k', v'⟩ := kv
    by_cases hk : k' = k
    · exact ⟨v', by simp [StringMap.get, hk]⟩
    · rcases List.mem_cons.1 h with h | h
      · exact absurd (congrArg Prod.fst h).symm hk
      · obtain ⟨w, hw⟩ := ih h
        exact ⟨w, by simp [StringMap.get, hk, hw]⟩

theorem StringMap.mem_sortedKeys {m : StringMap} {k : String} :
    k ∈ m.sortedKeys ↔ ∃ v, (k, v) ∈ m := by
  unfold StringMap.sortedKeys
  rw [(List.perm_insertionSort keyLE _).mem_iff, List.mem_dedup]
  simp

/-- A member is written by `json_Marshal` exactly when the map binds its key to
its value. -/
theorem mem_json_Marshal {m : StringMap} {k v : String} :
    (k, v) ∈ json_Marshal m ↔ m.get k = some v := by
  unfold json_Marshal
  rw [List.mem_filterMap]
  constructor
  · rintro ⟨k', _, h⟩
    cases hg : m.get k' with
    | none => simp [hg] at h
    | some w =>
      simp [hg] at h
      obtain ⟨rfl, rfl⟩ := h
      exact hg
  · intro h
    exact ⟨k, StringMap.mem_sortedKeys.2 ⟨v, StringMap.mem_of_get h⟩, by simp [h]⟩

/-- The members written by `json_Marshal` meet a field exactly when the
annotations supply it. -/
theorem exists_mem_json_Marshal_iff_supplies {m : StringMap} {f : ResourceField} :
    (∃ kv ∈ json_Marshal m, lookupField kv.1 = some f) ↔ supplies m f := by
  constructor
  · rintro ⟨⟨k, v⟩, hmem, hf⟩
    exact ⟨(k, v), StringMap.mem_of_get (mem_json_Marshal.1 hmem), hf⟩
  · rintro ⟨⟨k, v⟩, hmem, hf⟩
    obtain ⟨w, hw⟩ := StringMap.get_isSome_of_mem hmem
    exact ⟨(k, w), mem_json_Marshal.2 hw, hf⟩

@[simp] theorem Config.get_set_self (c : Config) (f : ResourceField) (q : Quantity) :
    (c.set f q).get f = q := by
  cases f <;> rfl

theorem Config.get_set_of_ne (c : Config) {f g : ResourceField} (q : Quantity) (h : g ≠ f) :
    (c.set g q).get f = c.get f := by
  cases f <;> cases g <;> first | rfl | exact absurd rfl h

@[simp] theorem Config.ContainerImage_set (c : Config) (f : ResourceField) (q : Quantity) :
    (c.set f q).ContainerImage = c.ContainerImage := by
  cases f <;> rfl

@[simp] theorem Config.ImagePullPolicy_set (c : Config) (f : ResourceField) (q : Quantity) :
    (c.set f q).ImagePullPolicy = c.ImagePullPolicy := by
  cases f <;> rfl

/-- Decoding leaves the image and the pull policy as they were. -/
theorem json_Unmarshal_image (u : String → Except String Quantity) :
    ∀ (data : List (String × String)) (c c' : Config), json_Unmarshal u data c = .ok c' →
      c'.ContainerImage = c.ContainerImage ∧ c'.ImagePullPolicy = c.ImagePullPolicy := by
  intro data
  induction data with
  | nil =>
    intro c c' h
    simp [json_Unmarshal] at h
    subst h
    exact ⟨rfl, rfl⟩
  | cons kv rest ih =>
    intro c c' h
    obtain ⟨k, v⟩ := kv
    unfold json_Unmarshal at h
    cases hf : lookupField k with
    | none =>
      simp only [hf] at h
      exact ih c c' h
    | some f =>
      simp only [hf] at h
      cases hu : u v with
      | error e => simp [hu] at h
      | ok q =>
        simp only [hu] at h
        have := ih _ c' h
        simpa using this

/-- Decoding leaves a field that no member meets as it was. -/
theorem json_Unmarshal_get_of_not_supplied (u : String → Except String Quantity)
    (f : ResourceField) :
    ∀ (data : List (String × String)) (c c' : Config), json_Unmarshal u data c = .ok c' →
      (¬ ∃ kv ∈ data, lookupField kv.1 = some f) → c'.get f = c.get f := by
  intro data
  induction data with
  | nil =>
    intro c c' h _
    simp [json_Unmarshal] at h
    subst h
    rfl
  | cons kv rest ih =>
    intro c c' h hno
    obtain ⟨k, v⟩ := kv
    have hrest : ¬ ∃ kv ∈ rest, lookupField kv.1 = some f := by
      rintro ⟨kv, hm, hkv⟩
      exact hno ⟨kv, List.mem_cons_of_mem _ hm, hkv⟩
    unfold json_Unmarshal at h
    cases hf : lookupField k with
    | none =>
      simp only [hf] at h
      exact ih c c' h hrest
    | some g =>
      simp only [hf] at h
      cases hu : u v with
      | error e => simp [hu] at h
      | ok q =>
        simp only [hu] at h
        have hne : g ≠ f := by
          rintro rfl
          exact hno ⟨(k, v), List.mem_cons_self _ _, hf⟩
        rw [ih _ c' h hrest, Config.get_set_of_ne c q hne]

/-- A field that holds a parsed quantity before decoding holds one after. -/
theorem json_Unmarshal_parsed_of_parsed (u : String → Except String Quantity)
    (f : ResourceField) :
    ∀ (data : List (String × String)) (c c' : Config), json_Unmarshal u data c = .ok c' →
      (∃ v, u v = .ok (c.get f)) → ∃ v, u v = .ok (c'.get f) := by
  intro data
  induction data with
  | nil =>
    intro c c' h hp
    simp [json_Unmarshal] at h
    subst h
    exact hp
  | cons kv rest ih =>
    intro c c' h hp
    obtain ⟨k, v⟩ := kv
    unfold json_Unmarshal at h
    cases hf : lookupField k with
    | none =>
      simp only [hf] at h
      exact ih c c' h hp
    | some g =>
      simp only [hf] at h
      cases hu : u v with
      | error e => simp [hu] at h
      | ok q =>
        simp only [hu] at h
        refine ih _ c' h ?_
        by_cases hg : g = f
        · subst hg
          exact ⟨v, by simpa using hu⟩
        · rw [Config.get_set_of_ne c q hg]
          exact hp

/-- A field that some member meets holds a parsed quantity after decoding. -/
theorem json_Unmarshal_parsed_of_supplied (u : String → Except String Quantity)
    (f : ResourceField) :
    ∀ (data : List (String × String)) (c c' : Config), json_Unmarshal u data c = .ok c' →
      (∃ kv ∈ data, lookupField kv.1 = some f) → ∃ v, u v = .ok (c'.get f) := by
  intro data
  induction data with
  | nil =>
    intro c c' _ hs
    simp at hs
  | cons kv rest ih =>
    intro c c' h hs
    obtain ⟨k, v⟩ := kv
    unfold json_Unmarshal at h
    cases hf : lookupField k with
    | none =>
      simp only [hf] at h
      refine ih c c' h ?_
      obtain ⟨kv, hm, hkv⟩ := hs
      rcases List.mem_cons.1 hm with rfl | hm
      · simp [hf] at hkv
      · exact ⟨kv, hm, hkv⟩
    | some g =>
      simp only [hf] at h
      cases hu : u v with
      | error e => simp [hu] at h
      | ok q =>
        simp only [hu] at h
        by_cases hg : g = f
        · subst hg
          exact json_Unmarshal_parsed_of_parsed u g rest _ c' h ⟨v, by simpa using hu⟩
        · refine ih _ c' h ?_
          obtain ⟨kv, hm, hkv⟩ := hs
          rcases List.mem_cons.1 hm with rfl | hm
          · simp [hf] at hkv
            exact absurd hkv hg
          · exact ⟨kv, hm, hkv⟩

/-- What a successful `prepareConfig` returns: the image and pull policy of
the default configuration and, in each dimension, the outcome of
`populateResource` on the decoded request and limit, where a decoded field is
the zero value when the annotations do not supply it and a parsed quantity
when they do. -/
theorem prepareConfig_ok (ext : Externals) (si : SidecarInjector) (annotations : StringMap)
    (cfg : Config) (h : prepareConfig ext si annotations = .ok cfg) :
    ∃ c : Config,
      (∀ f, ¬ supplies annotations f → c.get f = Quantity.zero) ∧
      (∀ f, supplies annotations f → ∃ v, ext.UnmarshalQuantity v = .ok (c.get f)) ∧
      cfg.ContainerImage = si.Config.ContainerImage ∧
      cfg.ImagePullPolicy = si.Config.ImagePullPolicy ∧
      ∀ d : Dimension,
        (cfg.get d.requestField, cfg.get d.limitField) =
          populateResource (c.get d.requestField) (c.get d.limitField)
            (si.Config.get d.requestField) (si.Config.get d.limitField) := by
  unfold prepareConfig at h
  simp only at h
  split at h
  · simp at h
  · rename_i c hc
    simp only [Except.ok.injEq] at h
    refine ⟨c, ?_, ?_, ?_, ?_, ?_⟩
    · intro f hf
      rw [json_Unmarshal_get_of_not_supplied _ f _ _ _ hc
        (fun hx => hf (exists_mem_json_Marshal_iff_supplies.1 hx))]
      cases f <;> rfl
    · intro f hf
      exact json_Unmarshal_parsed_of_supplied _ f _ _ _ hc
        (exists_mem_json_Marshal_iff_supplies.2 hf)
    · rw [← h]
      exact (json_Unmarshal_image _ _ _ _ hc).1
    · rw [← h]
      exact (json_Unmarshal_image _ _ _ _ hc).2
    · intro d
      rw [← h]
      cases d <;> rfl

/-- The outcome of `populateResource` on a request and a limit that are both
unset, in terms of the defaults. -/
theorem populateResource_unset (rq lq drq dlq : Quantity)
    (hr : rq.Format = "") (hl : lq.Format = "") :
    populateResource rq lq drq dlq =
      (if drq.Format = "" ∧ dlq.Format ≠ "" then dlq else drq,
       if dlq.Format = "" then drq else dlq) := by
  by_cases h3 : drq.Format = "" <;> by_cases h4 : dlq.Format = "" <;>
    simp [populateResource, hr, hl, h3, h4]

/-- If one of the four inputs of `populateResource` is set, both results are. -/
theorem populateResource_set (rq lq drq dlq : Quantity)
    (h : rq.Format ≠ "" ∨ lq.Format ≠ "" ∨ drq.Format ≠ "" ∨ dlq.Format ≠ "") :
    (populateResource rq lq drq dlq).1.Format ≠ "" ∧
    (populateResource rq lq drq dlq).2.Format ≠ "" := by
  by_cases h1 : rq.Format = "" <;> by_cases h2 : lq.Format = "" <;>
    by_cases h3 : drq.Format = "" <;> by_cases h4 : dlq.Format = "" <;>
    simp_all [populateResource]

/-- The sample parser only returns quantities that are set. -/
theorem sampleUnmarshalQuantity_set (s : String) (q : Quantity)
    (h : sampleUnmarshalQuantity s = .ok q) : q.Format ≠ "" := by
  unfold sampleUnmarshalQuantity at h
  split at h
  · cases h; decide
  · split at h
    · cases h; decide
    · split at h
      · cases h; decide
      · cases h

/-! ## Keys that the decoding does not look at -/

/-- Decoding only looks at the members whose key names a resource field. -/
theorem json_Unmarshal_filter (u : String → Except String Quantity) :
    ∀ (data : List (String × String)) (c : Config),
      json_Unmarshal u data c =
        json_Unmarshal u (data.filter (fun kv => (lookupField kv.1).isSome)) c := by
  intro data
  induction data with
  | nil => intro c; rfl
  | cons kv rest ih =>
    intro c
    obtain ⟨k, v⟩ := kv
    cases hk : lookupField k with
    | none =>
      rw [List.filter_cons_of_neg (by simp [hk])]
      rw [← ih c]
      simp [json_Unmarshal, hk]
    | some f =>
      rw [List.filter_cons_of_pos (by simp [hk])]
      unfold json_Unmarshal
      simp only [hk]
      cases hu : u v with
      | error e => rfl
      | ok q => exact ih _

theorem keyLE_total : IsTotal String keyLE := ⟨fun a b => le_total a.data b.data⟩

theorem keyLE_trans : IsTrans String keyLE :=
  ⟨fun a b c (h1 : a.data ≤ b.data) (h2 : b.data ≤ c.data) => le_trans h1 h2⟩

theorem keyLE_antisymm : IsAntisymm String keyLE :=
  ⟨fun a b (h1 : a.data ≤ b.data) (h2 : b.data ≤ a.data) => String.ext (le_antisymm h1 h2)⟩

/-- The keys of a map are listed in ascending order, each once. -/
theorem StringMap.sortedKeys_sorted (m : StringMap) :
    m.sortedKeys.Sorted keyLE ∧ m.sortedKeys.Nodup := by
  constructor
  · haveI := keyLE_total
    haveI := keyLE_trans
    exact List.sorted_insertionSort keyLE _
  · unfold StringMap.sortedKeys
    rw [(List.perm_insertionSort keyLE _).nodup_iff]
    exact List.nodup_dedup _

/-- The members written by `json_Marshal` whose key names a resource field:
one for each such key of the map, in ascending key order. -/
theorem filter_json_Marshal (m : StringMap) :
    (json_Marshal m).filter (fun kv => (lookupField kv.1).isSome) =
      (m.sortedKeys.filter (fun k => (lookupField k).isSome)).filterMap
        (fun k => (m.get k).map (fun v => (k, v))) := by
  unfold json_Marshal
  rw [List.filter_filterMap, List.filterMap_filter]
  apply List.filterMap_congr
  intro k _
  cases hget : m.get k with
  | none => simp
  | some v =>
    cases hk : lookupField k <;> simp [Option.filter, hk]

/-- Two maps that agree on every key that names a resource field have the
same members of that kind. -/
theorem filter_json_Marshal_congr (a1 a2 : StringMap)
    (h : ∀ k, lookupField k ≠ none → a1.get k = a2.get k) :
    (json_Marshal a1).filter (fun kv => (lookupField kv.1).isSome) =
      (json_Marshal a2).filter (fun kv => (lookupField kv.1).isSome) := by
  rw [filter_json_Marshal, filter_json_Marshal]
  have hmem : ∀ (a b : StringMap), (∀ k, lookupField k ≠ none → a.get k = b.get k) →
      ∀ k, k ∈ a.sortedKeys.filter (fun k => (lookupField k).isSome) →
        k ∈ b.sortedKeys.filter (fun k => (lookupField k).isSome) := by
    intro a b hab k hk
    rw [List.mem_filter] at hk ⊢
    refine ⟨?_, hk.2⟩
    obtain ⟨v, hv⟩ := StringMap.mem_sortedKeys.1 hk.1
    obtain ⟨w, hw⟩ := StringMap.get_isSome_of_mem hv
    have hne : lookupField k ≠ none := by
      intro hnone
      simp [hnone] at hk
    rw [hab k hne] at hw
    exact StringMap.mem_sortedKeys.2 ⟨w, StringMap.mem_of_get hw⟩
  have hkeys : a1.sortedKeys.filter (fun k => (lookupField k).isSome) =
      a2.sortedKeys.filter (fun k => (lookupField k).isSome) := by
    haveI := keyLE_antisymm
    apply List.eq_of_perm_of_sorted (r := keyLE)
    · rw [List.perm_ext_iff_of_nodup ((a1.sortedKeys_sorted).2.filter _)
        ((a2.sortedKeys_sorted).2.filter _)]
      intro k
      exact ⟨hmem a1 a2 h k, hmem a2 a1 (fun k hk => (h k hk).symm) k⟩
    · exact (a1.sortedKeys_sorted).1.filter _
    · exact (a2.sortedKeys_sorted).1.filter _
  rw [hkeys]
  apply List.filterMap_congr
  intro k hk
  have hne : lookupField k ≠ none := by
    intro hnone
    simp [List.mem_filter, hnone] at hk
  rw [h k hne]

/-- The outcome of `prepareConfig` only depends on what the annotations bind
the keys that name a resource field to. -/
theorem prepareConfig_congr (ext : Externals) (si : SidecarInjector) (a1 a2 : StringMap)
    (h : ∀ k, lookupField k ≠ none → a1.get k = a2.get k) :
    prepareConfig ext si a1 = prepareConfig ext si a2 := by
  unfold prepareConfig
  simp only
  rw [json_Unmarshal_filter _ (json_Marshal a1), json_Unmarshal_filter _ (json_Marshal a2),
    filter_json_Marshal_congr a1 a2 h]

/-- A key that is stored in a field equals the JSON name of that field up to
case folding. -/
theorem foldName_of_lookupField {k : String} {f : ResourceField}
    (h : lookupField k = some f) : foldName f.jsonName = foldName k := by
  unfold lookupField at h
  split at h
  · rename_i g hg
    have := List.find?_some hg
    simp only [Option.some.injEq] at h
    subst h
    simp at this
    rw [this]
  · have := List.find?_some h
    simpa using this

/-- The annotations do not supply a field when none of their keys equals the
JSON name of the field up to case folding. -/
theorem not_supplies_of_foldName_ne {annotations : StringMap} {f : ResourceField}
    (h : ∀ k v, annotations.get k = some v → foldName k ≠ foldName f.jsonName) :
    ¬ supplies annotations f := by
  rintro ⟨⟨k, v⟩, hmem, hk⟩
  obtain ⟨w, hw⟩ := StringMap.get_isSome_of_mem hmem
  exact h k w hw (foldName_of_lookupField hk).symm

/-- The keys that name a resource field are those that equal the JSON name of
a field up to case folding. -/
theorem lookupField_ne_none_iff (k : String) :
    lookupField k ≠ none ↔ ∃ f : ResourceField, foldName f.jsonName = foldName k := by
  unfold lookupField
  constructor
  · intro h
    split at h
    · rename_i f hf
      have := List.find?_some hf
      exact ⟨f, by simp at this; rw [this]⟩
    · cases hfold : ResourceField.all.find?
        (fun f => foldName f.jsonName == foldName k) with
      | none => exact absurd hfold h
      | some f =>
        have := List.find?_some hfold
        exact ⟨f, by simpa using this⟩
  · rintro ⟨f, hf⟩
    split
    · simp
    · intro hnone
      rw [List.find?_eq_none] at hnone
      have := hnone f (by cases f <;> simp [ResourceField.all])
      simp [hf] at this

/-! ## The placeholder scan -/

/-- The scan leaves `image` and `index` alone when no container carries the
sidecar name. -/
theorem scanContainers_of_no_match (ext : Externals) :
    ∀ (cs : List Container) (i : Nat) (st : String × Nat),
      (∀ c ∈ cs, c.Name ≠ SidecarContainerName) → scanContainers ext cs i st = .ok st := by
  intro cs
  induction cs with
  | nil => intro i st _; rfl
  | cons c cs ih =>
    intro i st h
    have hc : c.Name ≠ SidecarContainerName := h c (List.mem_cons_self _ _)
    have hcs : ∀ c ∈ cs, c.Name ≠ SidecarContainerName :=
      fun c' hc' => h c' (List.mem_cons_of_mem _ hc')
    simp [scanContainers, hc, ih (i + 1) st hcs]

/-- Inside the slice, `removeAt` erases the element at the given position. -/
theorem removeAt_eq_eraseIdx (s : List Container) (index : Nat) (h : index < s.length) :
    removeAt s index = s.eraseIdx index := by
  unfold removeAt
  rw [List.eraseIdx_eq_take_drop_succ, List.append_assoc, ← List.append_assoc,
    List.take_append_of_le_length]
  · apply List.take_of_length_le
    simp
    omega
  · simp
    omega

/-- What `removeAt` leaves is a sublist of the slice: the elements kept are in
their original order. -/
theorem removeAt_sublist (s : List Container) (index : Nat) :
    (removeAt s index).Sublist s := by
  by_cases h : index < s.length
  · rw [removeAt_eq_eraseIdx s index h]
    exact List.eraseIdx_sublist s index
  · unfold removeAt
    have h1 : s.take index = s := List.take_of_length_le (by omega)
    have h2 : s.drop (index + 1) = [] := List.drop_of_length_le (by omega)
    rw [h1, h2, List.append_nil, List.take_append_of_le_length (by omega)]
    exact List.take_sublist _ _

/-- A successful `parseSidecarContainerImage` only writes to the container
list, and what it leaves there is a sublist of what it found. -/
theorem parseSidecarContainerImage_ok (ext : Externals) (pod pod2 : Pod) (image : String)
    (h : parseSidecarContainerImage ext pod = .ok (image, pod2)) :
    pod2.Name = pod.Name ∧ pod2.GenerateName = pod.GenerateName ∧
    pod2.Namespace = pod.Namespace ∧ pod2.Annotations = pod.Annotations ∧
    pod2.Spec.Volumes = pod.Spec.Volumes ∧
    pod2.Spec.Containers.Sublist pod.Spec.Containers := by
  unfold parseSidecarContainerImage at h
  split at h
  · simp at h
  · rename_i img index hscan
    split at h
    · simp only [Except.ok.injEq, Prod.mk.injEq] at h
      obtain ⟨_, rfl⟩ := h
      exact ⟨rfl, rfl, rfl, rfl, rfl, removeAt_sublist _ _⟩
    · simp only [Except.ok.injEq, Prod.mk.injEq] at h
      obtain ⟨_, rfl⟩ := h
      exact ⟨rfl, rfl, rfl, rfl, rfl, List.Sublist.refl _⟩

/-- With no container that carries the sidecar name, `parseSidecarContainerImage`
returns the empty image and leaves the pod as it was. -/
theorem parseSidecarContainerImage_of_no_match (ext : Externals) (pod : Pod)
    (h : ∀ c ∈ pod.Spec.Containers, c.Name ≠ SidecarContainerName) :
    parseSidecarContainerImage ext pod = .ok ("", pod) := by
  simp [parseSidecarContainerImage, scanContainers_of_no_match ext _ 0 ("", 0) h]

/-- The scan fails when a container that carries the sidecar name has an
image that the image check rejects. -/
theorem scanContainers_error_of_invalid (ext : Externals) :
    ∀ (cs : List Container) (i : Nat) (st : String × Nat),
      (∃ c ∈ cs, c.Name = SidecarContainerName ∧ ∃ e, ext.ParseImageName c.Image = .error e) →
      ∃ e, scanContainers ext cs i st = .error e := by
  intro cs
  induction cs with
  | nil =>
    intro i st h
    simp at h
  | cons c cs ih =>
    intro i st h
    obtain ⟨c', hmem, hname, e, he⟩ := h
    unfold scanContainers
    by_cases hc : c.Name = SidecarContainerName
    · simp only [hc, if_true]
      cases hp : ext.ParseImageName c.Image with
      | error e' => exact ⟨_, rfl⟩
      | ok u =>
        rcases List.mem_cons.1 hmem with rfl | hmem
        · rw [hp] at he
          cases he
        · exact ih (i + 1) (c.Image, i) ⟨c', hmem, hname, e, he⟩
    · simp only [hc, if_false]
      rcases List.mem_cons.1 hmem with rfl | hmem
      · exact absurd hname hc
      · exact ih (i + 1) st ⟨c', hmem, hname, e, he⟩

/-- The scan ends with the image and the position of the last container that
carries the sidecar name, when the image check accepts every image it is
shown. -/
theorem scanContainers_last_match (ext : Externals) (c : Container) (post : List Container)
    (hname : c.Name = SidecarContainerName)
    (hvalid : ∃ u, ext.ParseImageName c.Image = .ok u)
    (hpost : ∀ c' ∈ post, c'.Name ≠ SidecarContainerName) :
    ∀ (pre : List Container) (i : Nat) (st : String × Nat),
      (∀ c' ∈ pre, c'.Name = SidecarContainerName → ∃ u, ext.ParseImageName c'.Image = .ok u) →
      scanContainers ext (pre ++ c :: post) i st = .ok (c.Image, i + pre.length) := by
  intro pre
  induction pre with
  | nil =>
    intro i st _
    obtain ⟨u, hu⟩ := hvalid
    simp [scanContainers, hname, hu, scanContainers_of_no_match ext post (i + 1) (c.Image, i) hpost]
  | cons p pre ih =>
    intro i st hpre
    have hrest : ∀ c' ∈ pre, c'.Name = SidecarContainerName →
        ∃ u, ext.ParseImageName c'.Image = .ok u :=
      fun c' hc' => hpre c' (List.mem_cons_of_mem _ hc')
    rw [List.cons_append]
    unfold scanContainers
    by_cases hp : p.Name = SidecarContainerName
    · obtain ⟨u, hu⟩ := hpre p (List.mem_cons_self _ _) hp
      simp only [hp, if_true, hu]
      rw [ih (i + 1) (p.Image, i) hrest]
      simp only [List.length_cons]
      congr 2
      omega
    · simp only [hp, if_false]
      rw [ih (i + 1) st hrest]
      simp only [List.length_cons]
      congr 2
      omega

/-- A list splits at a position it has. -/
theorem split_at_index (cs : List Container) (i : Nat) (c : Container)
    (hi : cs[i]? = some c) :
    cs = cs.take i ++ c :: cs.drop (i + 1) ∧ (cs.take i).length = i := by
  obtain ⟨hlt, hc⟩ := List.getElem?_eq_some.1 hi
  refine ⟨?_, by simp; omega⟩
  rw [← hc, ← List.drop_eq_getElem_cons hlt, List.take_append_drop]

/-- The scan, started at position 0, ends with the image and the position of
the container at position `i` when that one carries the sidecar name, no later
one does, and the image check accepts the image of every container that
carries the sidecar name. -/
theorem scanContainers_last_index (ext : Externals) (cs : List Container) (i : Nat)
    (c : Container) (hi : cs[i]? = some c) (hname : c.Name = SidecarContainerName)
    (hvalid : ∀ c' ∈ cs, c'.Name = SidecarContainerName →
      ∃ u, ext.ParseImageName c'.Image = .ok u)
    (hlast : ∀ j c', i < j → cs[j]? = some c' → c'.Name ≠ SidecarContainerName) :
    scanContainers ext cs 0 ("", 0) = .ok (c.Image, i) := by
  obtain ⟨hsplit, hlen⟩ := split_at_index cs i c hi
  have hcmem : c ∈ cs := List.getElem?_mem hi
  have hpost : ∀ c' ∈ cs.drop (i + 1), c'.Name ≠ SidecarContainerName := by
    intro c' hc'
    obtain ⟨k, hk⟩ := List.getElem?_of_mem hc'
    rw [List.getElem?_drop] at hk
    exact hlast (i + 1 + k) c' (by omega) hk
  have hpre : ∀ c' ∈ cs.take i, c'.Name = SidecarContainerName →
      ∃ u, ext.ParseImageName c'.Image = .ok u :=
    fun c' hc' => hvalid c' (List.mem_of_mem_take hc')
  have h := scanContainers_last_match ext c (cs.drop (i + 1)) hname (hvalid c hcmem hname)
    hpost (cs.take i) 0 ("", 0) hpre
  rw [← hsplit, hlen, Nat.zero_add] at h
  exact h

/-- When the scan succeeds, `image` and `index` are as they were at the start
or are the image and the position of a container that carries the sidecar
name. -/
theorem scanContainers_ok_cases (ext : Externals) :
    ∀ (cs : List Container) (i : Nat) (st : String × Nat) (image : String) (index : Nat),
      scanContainers ext cs i st = .ok (image, index) →
      (image, index) = st ∨
      ∃ c, cs[index - i]? = some c ∧ i ≤ index ∧ c.Name = SidecarContainerName ∧
        c.Image = image := by
  intro cs
  induction cs with
  | nil =>
    intro i st image index h
    simp [scanContainers] at h
    exact Or.inl (by rw [h])
  | cons c cs ih =>
    intro i st image index h
    unfold scanContainers at h
    by_cases hc : c.Name = SidecarContainerName
    · simp only [hc, if_true] at h
      cases hp : ext.ParseImageName c.Image with
      | error e => simp [hp] at h
      | ok u =>
        simp only [hp] at h
        rcases ih (i + 1) (c.Image, i) image index h with h1 | ⟨c', hget, hle, hn, him⟩
        · simp only [Prod.mk.injEq] at h1
          obtain ⟨h1, h2⟩ := h1
          refine Or.inr ⟨c, ?_, by omega, hc, h1.symm⟩
          simp [h2]
        · refine Or.inr ⟨c', ?_, by omega, hn, him⟩
          have : index - i = (index - (i + 1)) + 1 := by omega
          rw [this, List.getElem?_cons_succ]
          exact hget
    · simp only [hc, if_false] at h
      rcases ih (i + 1) st image index h with h1 | ⟨c', hget, hle, hn, him⟩
      · exact Or.inl h1
      · refine Or.inr ⟨c', ?_, by omega, hn, him⟩
        have : index - i = (index - (i + 1)) + 1 := by omega
        rw [this, List.getElem?_cons_succ]
        exact hget

/-- `parseSidecarContainerImage` fails when a container that carries the
sidecar name has an image that the image check rejects. -/
theorem parseSidecarContainerImage_error_of_invalid (ext : Externals) (pod : Pod)
    (h : ∃ c ∈ pod.Spec.Containers, c.Name = SidecarContainerName ∧
      ∃ e, ext.ParseImageName c.Image = .error e) :
    ∃ e, parseSidecarContainerImage ext pod = .error e := by
  obtain ⟨e, he⟩ := scanContainers_error_of_invalid ext pod.Spec.Containers 0 ("", 0) h
  exact ⟨e, by simp [parseSidecarContainerImage, he]⟩

/-- A successful `parseSidecarContainerImage` either returns the empty image
and leaves the pod as it was, or returns the image, which is not empty, of a
container that carries the sidecar name and erases that container. -/
theorem parseSidecarContainerImage_ok_cases (ext : Externals) (pod pod2 : Pod)
    (image : String) (h : parseSidecarContainerImage ext pod = .ok (image, pod2)) :
    (image = "" ∧ pod2 = pod) ∨
    (image ≠ "" ∧ ∃ i c, pod.Spec.Containers[i]? = some c ∧
      c.Name = SidecarContainerName ∧ c.Image = image ∧
      pod2 = { pod with Spec := { pod.Spec with
        Containers := pod.Spec.Containers.eraseIdx i } }) := by
  unfold parseSidecarContainerImage at h
  split at h
  · simp at h
  · rename_i img index hscan
    split at h
    · rename_i himg
      simp only [Except.ok.injEq, Prod.mk.injEq] at h
      obtain ⟨rfl, rfl⟩ := h
      rcases scanContainers_ok_cases ext _ 0 ("", 0) img index hscan with h1 | ⟨c, hget, _, hn, him⟩
      · simp only [Prod.mk.injEq] at h1
        exact absurd h1.1 himg
      · rw [Nat.sub_zero] at hget
        refine Or.inr ⟨himg, index, c, hget, hn, him, ?_⟩
        rw [removeAt_eq_eraseIdx _ _ (List.getElem?_eq_some.1 hget).1]
    · rename_i himg
      simp only [Except.ok.injEq, Prod.mk.injEq] at h
      obtain ⟨rfl, rfl⟩ := h
      exact Or.inl ⟨not_not.1 himg, rfl⟩

/-- The outcome of `parseSidecarContainerImage` when the container at position
`i` is the last one that carries the sidecar name and the image check accepts
the image of every container that carries it: the image of that container is
returned, and the container is erased unless its image is empty. -/
theorem parseSidecarContainerImage_last_index (ext : Externals) (pod : Pod) (i : Nat)
    (c : Container) (hi : pod.Spec.Containers[i]? = some c)
    (hname : c.Name = SidecarContainerName)
    (hvalid : ∀ c' ∈ pod.Spec.Containers, c'.Name = SidecarContainerName →
      ∃ u, ext.ParseImageName c'.Image = .ok u)
    (hlast : ∀ j c', i < j → pod.Spec.Containers[j]? = some c' →
      c'.Name ≠ SidecarContainerName) :
    parseSidecarContainerImage ext pod =
      if c.Image ≠ "" then
        .ok (c.Image, { pod with Spec := { pod.Spec with
          Containers := pod.Spec.Containers.eraseIdx i } })
      else .ok (c.Image, pod) := by
  unfold parseSidecarContainerImage
  rw [scanContainers_last_index ext _ i c hi hname hvalid hlast]
  simp only [removeAt_eq_eraseIdx _ _ (List.getElem?_eq_some.1 hi).1]

/-- Decoding fails when a member whose key names a resource field has a value
that the quantity parser rejects. -/
theorem json_Unmarshal_error_of_invalid (u : String → Except String Quantity) :
    ∀ (data : List (String × String)) (c : Config),
      (∃ kv ∈ data, lookupField kv.1 ≠ none ∧ ∃ e, u kv.2 = .error e) →
      ∃ e, json_Unmarshal u data c = .error e := by
  intro data
  induction data with
  | nil =>
    intro c h
    simp at h
  | cons kv rest ih =>
    intro c h
    obtain ⟨k, v⟩ := kv
    obtain ⟨kv', hmem, hf, e, he⟩ := h
    unfold json_Unmarshal
    cases hk : lookupField k with
    | none =>
      simp only
      rcases List.mem_cons.1 hmem with rfl | hmem
      · exact absurd hk hf
      · exact ih c ⟨kv', hmem, hf, e, he⟩
    | some f =>
      simp only
      cases hu : u v with
      | error e' => exact ⟨_, rfl⟩
      | ok q =>
        simp only
        rcases List.mem_cons.1 hmem with rfl | hmem
        · rw [hu] at he
          cases he
        · exact ih _ ⟨kv', hmem, hf, e, he⟩

/-- A field is found under its own JSON name. -/
theorem lookupField_jsonName (f : ResourceField) : lookupField f.jsonName = some f := by
  cases f <;> decide

/-- The method `prepareConfig` fails when the annotations bind a key that names
a resource field to a value that the quantity parser rejects. -/
theorem prepareConfig_error_of_invalid (ext : Externals) (si : SidecarInjector)
    (annotations : StringMap) (k v e : String) (hk : lookupField k ≠ none)
    (hget : annotations.get k = some v) (hbad : ext.UnmarshalQuantity v = .error e) :
    ∃ e', prepareConfig ext si annotations = .error e' := by
  unfold prepareConfig
  simp only
  obtain ⟨e', he'⟩ := json_Unmarshal_error_of_invalid ext.UnmarshalQuantity
    (json_Marshal annotations)
    { ContainerImage := si.Config.ContainerImage
      ImagePullPolicy := si.Config.ImagePullPolicy
      CPULimit := Quantity.zero
      MemoryLimit := Quantity.zero
      EphemeralStorageLimit := Quantity.zero
      CPURequest := Quantity.zero
      MemoryRequest := Quantity.zero
      EphemeralStorageRequest := Quantity.zero }
    ⟨(k, v), mem_json_Marshal.2 hget, hk, e, hbad⟩
  rw [he']
  exact ⟨_, rfl⟩

/-! ## The paths of the handler -/

/-- The path of `Handle` past the two helper calls: the pod is mutated and
marshalled, and the response is the patch response, or status 400 when
marshalling fails. -/
theorem Handle_of_resolved (ext : Externals) (si : SidecarInjector) (req : Request)
    (pod pod2 : Pod) (v image : String) (config : Config)
    (hdec : si.Decoder req = .ok pod) (hop : req.Operation = v1_Create)
    (hget : pod.Annotations.get AnnotationGcsfuseVolumeEnableKey = some v)
    (htrue : strings_ToLower v = "true")
    (hinj : ext.ValidatePodHasSidecarContainerInjected pod true = false)
    (hcfg : prepareConfig ext si pod.Annotations = .ok config)
    (hparse : parseSidecarContainerImage ext pod = .ok (image, pod2)) :
    Handle ext si req =
      (match ext.MarshalPod
          (mutatedPod ext (logMutation ext (overrideImage config image)) pod2) with
       | .error _ => ⟨admission_Errored http_StatusBadRequest,
           some (mutatedPod ext (logMutation ext (overrideImage config image)) pod2)⟩
       | .ok marshaledPod => ⟨ext.PatchResponseFromRaw req.ObjectRaw marshaledPod,
           some (mutatedPod ext (logMutation ext (overrideImage config image)) pod2)⟩) := by
  have hne : ¬ ("true" : String) = "false" := by decide
  simp only [Handle, hdec, hop, hget, htrue, hne, hinj, hcfg, hparse, mutatedPod, overrideImage]
  simp

/-- The path of `Handle` on which `prepareConfig` fails. -/
theorem Handle_of_config_error (ext : Externals) (si : SidecarInjector) (req : Request)
    (pod : Pod) (v e : String)
    (hdec : si.Decoder req = .ok pod) (hop : req.Operation = v1_Create)
    (hget : pod.Annotations.get AnnotationGcsfuseVolumeEnableKey = some v)
    (htrue : strings_ToLower v = "true")
    (hinj : ext.ValidatePodHasSidecarContainerInjected pod true = false)
    (hcfg : prepareConfig ext si pod.Annotations = .error e) :
    Handle ext si req = ⟨admission_Errored http_StatusBadRequest, some pod⟩ := by
  have hne : ¬ ("true" : String) = "false" := by decide
  simp [Handle, hdec, hop, hget, htrue, hne, hinj, hcfg]

/-- The path of `Handle` on which `parseSidecarContainerImage` fails. -/
theorem Handle_of_image_error (ext : Externals) (si : SidecarInjector) (req : Request)
    (pod : Pod) (v e : String) (config : Config)
    (hdec : si.Decoder req = .ok pod) (hop : req.Operation = v1_Create)
    (hget : pod.Annotations.get AnnotationGcsfuseVolumeEnableKey = some v)
    (htrue : strings_ToLower v = "true")
    (hinj : ext.ValidatePodHasSidecarContainerInjected pod true = false)
    (hcfg : prepareConfig ext si pod.Annotations = .ok config)
    (hparse : parseSidecarContainerImage ext pod = .error e) :
    Handle ext si req = ⟨admission_Errored http_StatusBadRequest, some pod⟩ := by
  have hne : ¬ ("true" : String) = "false" := by decide
  simp [Handle, hdec, hop, hget, htrue, hne, hinj, hcfg, hparse]

/-! ## The request/limit resolver -/

/-- C1: when exactly one of request and limit is set on entry, with value `V`,
and the other has the empty `Format`, `populateResource` leaves both equal to
`V`, whatever the two defaults are. -/
theorem populateResource_one_set (rq lq drq dlq V : Quantity)
    (h : (rq = V ∧ rq.Format ≠ "" ∧ lq.Format = "") ∨
         (lq = V ∧ lq.Format ≠ "" ∧ rq.Format = "")) :
    populateResource rq lq drq dlq = (V, V) := by
  rcases h with ⟨hv, hr, hl⟩ | ⟨hv, hl, hr⟩
  · subst hv
    simp [populateResource, hr, hl]
  · subst hv
    simp [populateResource, hr, hl]

theorem populateResource_one_set_witness :
    ((q100m = q100m ∧ q100m.Format ≠ "" ∧ Quantity.zero.Format = "") ∨
      (Quantity.zero = q100m ∧ Quantity.zero.Format ≠ "" ∧ q100m.Format = "")) ∧
    populateResource q100m Quantity.zero q250m q1Gi = (q100m, q100m) :=
  ⟨by decide, populateResource_one_set q100m Quantity.zero q250m q1Gi q100m (by decide)⟩

/-- C2, as stated, fails: with request and limit unset, default request `100m`
and an unset default limit, the limit ends as `100m`, not as the default
limit. -/
theorem populateResource_unset_default_limit_counterexample :
    Quantity.zero.Format = "" ∧
    populateResource Quantity.zero Quantity.zero q100m Quantity.zero = (q100m, q100m) ∧
    (populateResource Quantity.zero Quantity.zero q100m Quantity.zero).2 ≠ Quantity.zero := by
  decide

/-- C2, amended: when request and limit are both unset on entry, the request
ends as the default request and the limit as the default limit provided the
two defaults are set; when only one default is set both end as that default,
and when neither is set both end as the default request. -/
theorem populateResource_both_unset (rq lq drq dlq : Quantity)
    (hr : rq.Format = "") (hl : lq.Format = "") :
    (drq.Format ≠ "" → dlq.Format ≠ "" → populateResource rq lq drq dlq = (drq, dlq)) ∧
    (drq.Format ≠ "" → dlq.Format = "" → populateResource rq lq drq dlq = (drq, drq)) ∧
    (drq.Format = "" → dlq.Format ≠ "" → populateResource rq lq drq dlq = (dlq, dlq)) ∧
    (drq.Format = "" → dlq.Format = "" → populateResource rq lq drq dlq = (drq, drq)) := by
  refine ⟨?_, ?_, ?_, ?_⟩ <;> intro h1 h2 <;> simp [populateResource, hr, hl, h1, h2]

theorem populateResource_both_unset_witness :
    Quantity.zero.Format = "" ∧
    populateResource Quantity.zero Quantity.zero q100m q250m = (q100m, q250m) :=
  ⟨by decide,
   (populateResource_both_unset Quantity.zero Quantity.zero q100m q250m
      (by decide) (by decide)).1 (by decide) (by decide)⟩

/-- C4: when request and limit are both set on entry, `populateResource`
leaves both as they were, whatever the defaults are and whether or not the
request equals the limit. -/
theorem populateResource_both_set (rq lq drq dlq : Quantity)
    (hr : rq.Format ≠ "") (hl : lq.Format ≠ "") :
    populateResource rq lq drq dlq = (rq, lq) := by
  simp [populateResource, hr, hl]

theorem populateResource_both_set_witness :
    q250m.Format ≠ "" ∧ q100m.Format ≠ "" ∧ q250m ≠ q100m ∧
    populateResource q250m q100m q1Gi Quantity.zero = (q250m, q100m) :=
  ⟨by decide, by decide, by decide,
   populateResource_both_set q250m q100m q1Gi Quantity.zero (by decide) (by decide)⟩

/-! ## The configuration resolver -/

/-- C3, as stated, fails: with default CPU request `100m`, default CPU limit
`250m` and no annotations, `prepareConfig` succeeds and the resolved CPU
request and limit differ; and with the single annotation
`gke-gcsfuse/CPU-limit` set to `1Gi`, which is none of the six resource keys,
the resolved CPU request and limit are `1Gi`, not the defaults. -/
theorem prepareConfig_defaults_differ_counterexample :
    (∃ cfg, prepareConfig sampleExternals (sampleInjector sampleConfig) [] = .ok cfg ∧
      cfg.get Dimension.CPU.requestField ≠ cfg.get Dimension.CPU.limitField) ∧
    (∀ f : ResourceField, foldedValidAnnotations.get f.jsonName = none) ∧
    (∃ cfg, prepareConfig sampleExternals (sampleInjector sampleConfig)
        foldedValidAnnotations = .ok cfg ∧
      cfg.get Dimension.CPU.requestField = q1Gi ∧
      cfg.get Dimension.CPU.limitField = q1Gi ∧
      cfg.get Dimension.CPU.requestField ≠ sampleConfig.get Dimension.CPU.requestField ∧
      cfg.get Dimension.CPU.limitField ≠ sampleConfig.get Dimension.CPU.limitField) := by
  refine ⟨⟨_, rfl, by decide⟩, ?_, ⟨_, rfl, rfl, rfl, by decide, by decide⟩⟩
  intro f
  cases f <;> decide

/-- C3, amended: in a dimension for which no key of the annotations equals the
request key or the limit key up to case folding, a successful `prepareConfig`
yields the default request as request and the default limit as limit when both
defaults are set; when the two defaults are the same value, request and limit
both equal it. -/
theorem prepareConfig_defaults (ext : Externals) (si : SidecarInjector)
    (annotations : StringMap) (d : Dimension) (cfg : Config)
    (hkeys : ∀ k v, annotations.get k = some v →
      foldName k ≠ foldName d.requestField.jsonName ∧
      foldName k ≠ foldName d.limitField.jsonName)
    (h : prepareConfig ext si annotations = .ok cfg) :
    ((si.Config.get d.requestField).Format ≠ "" → (si.Config.get d.limitField).Format ≠ "" →
      cfg.get d.requestField = si.Config.get d.requestField ∧
      cfg.get d.limitField = si.Config.get d.limitField) ∧
    (si.Config.get d.requestField = si.Config.get d.limitField →
      cfg.get d.requestField = si.Config.get d.requestField ∧
      cfg.get d.limitField = si.Config.get d.requestField) := by
  have hreq : ¬ supplies annotations d.requestField :=
    not_supplies_of_foldName_ne (fun k v hkv => (hkeys k v hkv).1)
  have hlim : ¬ supplies annotations d.limitField :=
    not_supplies_of_foldName_ne (fun k v hkv => (hkeys k v hkv).2)
  obtain ⟨c, hzero, _, _, _, hd⟩ := prepareConfig_ok ext si annotations cfg h
  have hp := hd d
  rw [hzero _ hreq, hzero _ hlim, populateResource_unset _ _ _ _ rfl rfl] at hp
  constructor
  · intro h1 h2
    simp only [h1, h2, false_and, if_false] at hp
    exact ⟨congrArg Prod.fst hp, congrArg Prod.snd hp⟩
  · intro he
    rw [← he] at hp
    simp only [and_not_self, if_false, ite_self] at hp
    exact ⟨congrArg Prod.fst hp, congrArg Prod.snd hp⟩

theorem prepareConfig_defaults_witness :
    (∀ k v, sampleAnnotations.get k = some v →
      foldName k ≠ foldName Dimension.CPU.requestField.jsonName ∧
      foldName k ≠ foldName Dimension.CPU.limitField.jsonName) ∧
    prepareConfig sampleExternals (sampleInjector sampleConfig) sampleAnnotations
      = .ok sampleResolved ∧
    (sampleResolved.get Dimension.CPU.requestField = q100m ∧
      sampleResolved.get Dimension.CPU.limitField = q250m) :=
  have hkeys : ∀ k v, sampleAnnotations.get k = some v →
      foldName k ≠ foldName Dimension.CPU.requestField.jsonName ∧
      foldName k ≠ foldName Dimension.CPU.limitField.jsonName := by
    intro k v hkv
    have hmem := StringMap.mem_of_get hkv
    simp only [sampleAnnotations, List.mem_cons, List.mem_singleton, Prod.mk.injEq,
      List.not_mem_nil, or_false] at hmem
    rcases hmem with ⟨rfl, _⟩ | ⟨rfl, _⟩ <;> decide
  ⟨hkeys, rfl,
   (prepareConfig_defaults sampleExternals (sampleInjector sampleConfig) sampleAnnotations
      Dimension.CPU sampleResolved hkeys rfl).1 (by decide) (by decide)⟩

/-- C5, as stated, fails: over a default configuration whose quantities are
all unset and with no annotations, `prepareConfig` succeeds and returns a CPU
request and a CPU limit that are unset. -/
theorem prepareConfig_unset_survives_counterexample :
    ∃ cfg, prepareConfig sampleExternals (sampleInjector unsetConfig) [] = .ok cfg ∧
      cfg.CPURequest.Format = "" ∧ cfg.CPULimit.Format = "" := by
  refine ⟨_, rfl, by decide, by decide⟩

/-- C5, amended: provided the quantity parser only returns quantities with a
non-empty `Format`, a successful `prepareConfig` returns, in every dimension in
which a default is set or for which the annotations supply a request or a
limit, a request and a limit that are both set. -/
theorem prepareConfig_both_set (ext : Externals) (si : SidecarInjector)
    (annotations : StringMap) (cfg : Config) (d : Dimension)
    (hparse : ∀ v q, ext.UnmarshalQuantity v = .ok q → q.Format ≠ "")
    (h : prepareConfig ext si annotations = .ok cfg)
    (hd : (si.Config.get d.requestField).Format ≠ "" ∨
          (si.Config.get d.limitField).Format ≠ "" ∨
          supplies annotations d.requestField ∨ supplies annotations d.limitField) :
    (cfg.get d.requestField).Format ≠ "" ∧ (cfg.get d.limitField).Format ≠ "" := by
  obtain ⟨c, _, hsup, _, _, hpop⟩ := prepareConfig_ok ext si annotations cfg h
  have hp := hpop d
  have hset : (c.get d.requestField).Format ≠ "" ∨ (c.get d.limitField).Format ≠ "" ∨
      (si.Config.get d.requestField).Format ≠ "" ∨
      (si.Config.get d.limitField).Format ≠ "" := by
    rcases hd with h1 | h2 | h3 | h4
    · exact Or.inr (Or.inr (Or.inl h1))
    · exact Or.inr (Or.inr (Or.inr h2))
    · obtain ⟨v, hv⟩ := hsup _ h3
      exact Or.inl (hparse v _ hv)
    · obtain ⟨v, hv⟩ := hsup _ h4
      exact Or.inr (Or.inl (hparse v _ hv))
  have hres := populateResource_set _ _ _ _ hset
  rw [← hp] at hres
  exact hres

theorem prepareConfig_both_set_witness :
    (∀ v q, sampleExternals.UnmarshalQuantity v = .ok q → q.Format ≠ "") ∧
    prepareConfig sampleExternals (sampleInjector unsetConfig) sampleAnnotations
      = .ok { unsetConfig with MemoryRequest := q1Gi, MemoryLimit := q1Gi } ∧
    supplies sampleAnnotations Dimension.Memory.limitField ∧
    (({ unsetConfig with MemoryRequest := q1Gi, MemoryLimit := q1Gi } : Config).get
        Dimension.Memory.requestField).Format ≠ "" ∧
    (({ unsetConfig with MemoryRequest := q1Gi, MemoryLimit := q1Gi } : Config).get
        Dimension.Memory.limitField).Format ≠ "" :=
  ⟨sampleUnmarshalQuantity_set, rfl, by decide,
   prepareConfig_both_set sampleExternals (sampleInjector unsetConfig) sampleAnnotations
     { unsetConfig with MemoryRequest := q1Gi, MemoryLimit := q1Gi } Dimension.Memory
     sampleUnmarshalQuantity_set rfl (Or.inr (Or.inr (Or.inr (by decide))))⟩

/-! ## The admission handler -/

/-- C6: when the request decodes to a pod and its operation is not Create,
`Handle` returns an allowed response (status 200) with no patch and leaves the
pod as decoded, whatever the pod holds. -/
theorem Handle_not_create (ext : Externals) (si : SidecarInjector) (req : Request) (pod : Pod)
    (hdec : si.Decoder req = .ok pod) (hop : req.Operation ≠ v1_Create) :
    (Handle ext si req).response.Allowed = true ∧
    (Handle ext si req).response.Code = http_StatusOK ∧
    (Handle ext si req).response.Patches = [] ∧
    (Handle ext si req).pod = some pod := by
  simp [Handle, hdec, hop, admission_Allowed]

theorem Handle_not_create_witness :
    (podInjector sampleConfig injectedPod).Decoder updateRequest = .ok injectedPod ∧
    updateRequest.Operation ≠ v1_Create ∧
    (Handle sampleExternals (podInjector sampleConfig injectedPod) updateRequest).response.Allowed
      = true ∧
    (Handle sampleExternals (podInjector sampleConfig injectedPod) updateRequest).response.Code
      = http_StatusOK ∧
    (Handle sampleExternals (podInjector sampleConfig injectedPod) updateRequest).response.Patches
      = [] ∧
    (Handle sampleExternals (podInjector sampleConfig injectedPod) updateRequest).pod
      = some injectedPod :=
  ⟨rfl, by decide,
   Handle_not_create sampleExternals (podInjector sampleConfig injectedPod) updateRequest
     injectedPod rfl (by decide)⟩

/-- C7: for a Create request that decodes to a pod, when the enable annotation
is absent, or present with a value whose lower-cased form is `"false"`,
`Handle` returns an allowed response (status 200) with no patch and leaves the
pod as decoded. -/
theorem Handle_not_enabled (ext : Externals) (si : SidecarInjector) (req : Request) (pod : Pod)
    (hdec : si.Decoder req = .ok pod) (hop : req.Operation = v1_Create)
    (h : pod.Annotations.get AnnotationGcsfuseVolumeEnableKey = none ∨
         ∃ v, pod.Annotations.get AnnotationGcsfuseVolumeEnableKey = some v ∧
           strings_ToLower v = "false") :
    (Handle ext si req).response.Allowed = true ∧
    (Handle ext si req).response.Code = http_StatusOK ∧
    (Handle ext si req).response.Patches = [] ∧
    (Handle ext si req).pod = some pod := by
  rcases h with h | ⟨v, h, hv⟩
  · simp [Handle, hdec, hop, h, admission_Allowed]
  · simp [Handle, hdec, hop, h, hv, admission_Allowed]

/-- C8: for a Create request that decodes to a pod whose enable annotation is
present with a value whose lower-cased form is neither `"true"` nor `"false"`,
`Handle` returns a response that is not allowed, has status 400 and carries no
patch. -/
theorem Handle_bad_enable_value (ext : Externals) (si : SidecarInjector) (req : Request)
    (pod : Pod) (v : String)
    (hdec : si.Decoder req = .ok pod) (hop : req.Operation = v1_Create)
    (hget : pod.Annotations.get AnnotationGcsfuseVolumeEnableKey = some v)
    (htrue : strings_ToLower v ≠ "true") (hfalse : strings_ToLower v ≠ "false") :
    (Handle ext si req).response.Allowed = false ∧
    (Handle ext si req).response.Code = 400 ∧
    (Handle ext si req).response.Patches = [] := by
  simp [Handle, hdec, hop, hget, htrue, hfalse, admission_Errored, http_StatusBadRequest]

/-- C9: for a Create request that decodes to a pod whose enable annotation
lower-cases to `"true"` and for which `ValidatePodHasSidecarContainerInjected`
holds in strict mode, `Handle` returns an allowed response (status 200) with no
patch and leaves the pod as decoded; the outcome is the same under any default
configuration, quantity parser, image check and spec builders, so neither the
resource annotations nor the containers are looked at. -/
theorem Handle_already_injected (ext : Externals) (si : SidecarInjector) (req : Request)
    (pod : Pod) (v : String)
    (hdec : si.Decoder req = .ok pod) (hop : req.Operation = v1_Create)
    (hget : pod.Annotations.get AnnotationGcsfuseVolumeEnableKey = some v)
    (htrue : strings_ToLower v = "true")
    (hinj : ext.ValidatePodHasSidecarContainerInjected pod true = true) :
    (Handle ext si req).response.Allowed = true ∧
    (Handle ext si req).response.Code = http_StatusOK ∧
    (Handle ext si req).response.Patches = [] ∧
    (Handle ext si req).pod = some pod ∧
    ∀ (ext2 : Externals) (si2 : SidecarInjector),
      si2.Decoder req = .ok pod →
      ext2.ValidatePodHasSidecarContainerInjected pod true = true →
      Handle ext2 si2 req = Handle ext si req := by
  have key : ∀ (e : Externals) (s : SidecarInjector), s.Decoder req = .ok pod →
      e.ValidatePodHasSidecarContainerInjected pod true = true →
      Handle e s req = ⟨admission_Allowed, some pod⟩ := by
    intro e s hd hi
    have hne : ¬ ("true" : String) = "false" := by decide
    simp [Handle, hd, hop, hget, htrue, hi, hne]
  rw [key ext si hdec hinj]
  refine ⟨rfl, rfl, rfl, rfl, ?_⟩
  intro ext2 si2 hd hi
  exact key ext2 si2 hd hi

theorem Handle_not_enabled_witness :
    (podInjector sampleConfig (samplePod [("gke-gcsfuse/volumes", "FALSE")])).Decoder
      createRequest = .ok (samplePod [("gke-gcsfuse/volumes", "FALSE")]) ∧
    createRequest.Operation = v1_Create ∧
    strings_ToLower "FALSE" = "false" ∧
    (Handle sampleExternals (podInjector sampleConfig
      (samplePod [("gke-gcsfuse/volumes", "FALSE")])) createRequest).response.Allowed = true ∧
    (Handle sampleExternals (podInjector sampleConfig
      (samplePod [("gke-gcsfuse/volumes", "FALSE")])) createRequest).response.Code = 200 ∧
    (Handle sampleExternals (podInjector sampleConfig
      (samplePod [("gke-gcsfuse/volumes", "FALSE")])) createRequest).response.Patches = [] ∧
    (Handle sampleExternals (podInjector sampleConfig
      (samplePod [("gke-gcsfuse/volumes", "FALSE")])) createRequest).pod
        = some (samplePod [("gke-gcsfuse/volumes", "FALSE")]) :=
  ⟨rfl, rfl, by decide,
   Handle_not_enabled sampleExternals
     (podInjector sampleConfig (samplePod [("gke-gcsfuse/volumes", "FALSE")])) createRequest
     (samplePod [("gke-gcsfuse/volumes", "FALSE")]) rfl rfl
     (Or.inr ⟨"FALSE", by decide, by decide⟩)⟩

theorem Handle_bad_enable_value_witness :
    (podInjector sampleConfig (samplePod [("gke-gcsfuse/volumes", "yes")])).Decoder
      createRequest = .ok (samplePod [("gke-gcsfuse/volumes", "yes")]) ∧
    createRequest.Operation = v1_Create ∧
    (samplePod [("gke-gcsfuse/volumes", "yes")]).Annotations.get
      AnnotationGcsfuseVolumeEnableKey = some "yes" ∧
    strings_ToLower "yes" ≠ "true" ∧ strings_ToLower "yes" ≠ "false" ∧
    (Handle sampleExternals (podInjector sampleConfig
      (samplePod [("gke-gcsfuse/volumes", "yes")])) createRequest).response.Allowed = false ∧
    (Handle sampleExternals (podInjector sampleConfig
      (samplePod [("gke-gcsfuse/volumes", "yes")])) createRequest).response.Code = 400 ∧
    (Handle sampleExternals (podInjector sampleConfig
      (samplePod [("gke-gcsfuse/volumes", "yes")])) createRequest).response.Patches = [] :=
  ⟨rfl, rfl, by decide, by decide, by decide,
   Handle_bad_enable_value sampleExternals
     (podInjector sampleConfig (samplePod [("gke-gcsfuse/volumes", "yes")])) createRequest
     (samplePod [("gke-gcsfuse/volumes", "yes")]) "yes" rfl rfl
     (by decide) (by decide) (by decide)⟩

theorem Handle_already_injected_witness :
    (podInjector sampleConfig injectedPod).Decoder createRequest = .ok injectedPod ∧
    injectedPod.Annotations.get AnnotationGcsfuseVolumeEnableKey = some "True" ∧
    strings_ToLower "True" = "true" ∧
    sampleExternals.ValidatePodHasSidecarContainerInjected injectedPod true = true ∧
    (∃ e, prepareConfig sampleExternals (podInjector sampleConfig injectedPod)
      injectedPod.Annotations = .error e) ∧
    (∃ e, parseSidecarContainerImage sampleExternals injectedPod = .error e) ∧
    (Handle sampleExternals (podInjector sampleConfig injectedPod) createRequest).response.Allowed
      = true ∧
    (Handle sampleExternals (podInjector sampleConfig injectedPod) createRequest).response.Patches
      = [] ∧
    (Handle sampleExternals (podInjector sampleConfig injectedPod) createRequest).pod
      = some injectedPod :=
  have h := Handle_already_injected sampleExternals (podInjector sampleConfig injectedPod)
    createRequest injectedPod "True" rfl rfl (by decide) (by decide) (by decide)
  ⟨rfl, by decide, by decide, by decide, ⟨_, rfl⟩, ⟨_, rfl⟩, h.1, h.2.2.1, h.2.2.2.1⟩

/-- C10: for a Create request that decodes to a pod whose enable annotation
lower-cases to `"true"`, that is not already injected and for which
`prepareConfig` and `parseSidecarContainerImage` succeed, the pod that `Handle`
marshals for the patch has as containers `GetSidecarContainerSpec(config)`,
`config` being the configuration as `Handle` holds it at that call (resolved,
image overridden, strings cached by the logging call), followed by the
containers that `parseSidecarContainerImage` left, which are a sublist of the
original ones (all of them when no container carries the sidecar name), and as
volumes `GetSidecarContainerVolumeSpec` of the original volumes followed by the
original volumes; the response is the patch response for that pod, or status
400 when marshalling fails. -/
theorem Handle_mutated_pod (ext : Externals) (si : SidecarInjector) (req : Request)
    (pod pod2 : Pod) (v image : String) (config : Config)
    (hdec : si.Decoder req = .ok pod) (hop : req.Operation = v1_Create)
    (hget : pod.Annotations.get AnnotationGcsfuseVolumeEnableKey = some v)
    (htrue : strings_ToLower v = "true")
    (hinj : ext.ValidatePodHasSidecarContainerInjected pod true = false)
    (hcfg : prepareConfig ext si pod.Annotations = .ok config)
    (hparse : parseSidecarContainerImage ext pod = .ok (image, pod2)) :
    ∃ mutated : Pod,
      (Handle ext si req).pod = some mutated ∧
      (Handle ext si req).response =
        (match ext.MarshalPod mutated with
         | .ok marshaledPod => ext.PatchResponseFromRaw req.ObjectRaw marshaledPod
         | .error _ => admission_Errored http_StatusBadRequest) ∧
      mutated.Spec.Containers =
        ext.GetSidecarContainerSpec
            (logMutation ext
              (if image ≠ "" then { config with ContainerImage := image } else config))
          :: pod2.Spec.Containers ∧
      pod2.Spec.Containers.Sublist pod.Spec.Containers ∧
      ((∀ c ∈ pod.Spec.Containers, c.Name ≠ SidecarContainerName) →
        pod2.Spec.Containers = pod.Spec.Containers) ∧
      mutated.Spec.Volumes =
        ext.GetSidecarContainerVolumeSpec pod.Spec.Volumes ++ pod.Spec.Volumes := by
  obtain ⟨_, _, _, _, hvol, hsub⟩ := parseSidecarContainerImage_ok ext pod pod2 image hparse
  have hnone : (∀ c ∈ pod.Spec.Containers, c.Name ≠ SidecarContainerName) →
      pod2.Spec.Containers = pod.Spec.Containers := by
    intro h
    rw [parseSidecarContainerImage_of_no_match ext pod h] at hparse
    simp only [Except.ok.injEq, Prod.mk.injEq] at hparse
    rw [hparse.2]
  have hstep := Handle_of_resolved ext si req pod pod2 v image config hdec hop hget htrue
    hinj hcfg hparse
  refine ⟨mutatedPod ext (logMutation ext (overrideImage config image)) pod2,
    ?_, ?_, rfl, hsub, hnone, ?_⟩
  · rw [hstep]
    split <;> rfl
  · rw [hstep]
    split <;> simp_all
  · simp [mutatedPod, hvol]

theorem Handle_mutated_pod_witness :
    (podInjector sampleConfig placeholderPod).Decoder createRequest = .ok placeholderPod ∧
    placeholderPod.Annotations.get AnnotationGcsfuseVolumeEnableKey = some "true" ∧
    sampleExternals.ValidatePodHasSidecarContainerInjected placeholderPod true = false ∧
    prepareConfig sampleExternals (podInjector sampleConfig placeholderPod)
      placeholderPod.Annotations = .ok sampleResolved ∧
    parseSidecarContainerImage sampleExternals placeholderPod
      = .ok ("repo/img:tag", strippedPod) ∧
    ∃ mutated : Pod,
      (Handle sampleExternals (podInjector sampleConfig placeholderPod) createRequest).pod
        = some mutated ∧
      mutated.Spec.Containers =
        [⟨SidecarContainerName, "repo/img:tag", "IfNotPresent 100m 250m"⟩,
         ⟨"first", "busybox", ""⟩, ⟨"second", "nginx", ""⟩] ∧
      mutated.Spec.Volumes = [sampleSidecarVolume, ⟨"data", "csi"⟩] :=
  have h := Handle_mutated_pod sampleExternals (podInjector sampleConfig placeholderPod)
    createRequest placeholderPod strippedPod "true" "repo/img:tag" sampleResolved
    rfl rfl (by decide) (by decide) (by decide) rfl rfl
  ⟨rfl, by decide, by decide, rfl, rfl,
   h.elim fun mutated hm => ⟨mutated, hm.1, hm.2.2.1, hm.2.2.2.2.2⟩⟩

/-- C11: on the path of `Handle` that reaches the mutation, the configuration
handed to `GetSidecarContainerSpec`, whose result heads the container list of
the mutated pod, has as image the one `parseSidecarContainerImage` returned
when that is not empty and the image of the default configuration otherwise,
has the pull policy of the default configuration, and has the six resource
amounts that `prepareConfig` computed: each has the value, the scale and the
`Format` it had on return from `prepareConfig`, whatever the image is, and is
that quantity after a call of `String`, which the logging call before the
builder makes and which fills the cached string and nothing else. -/
theorem Handle_spec_config (ext : Externals) (si : SidecarInjector) (req : Request)
    (pod pod2 : Pod) (v image : String) (config : Config)
    (hdec : si.Decoder req = .ok pod) (hop : req.Operation = v1_Create)
    (hget : pod.Annotations.get AnnotationGcsfuseVolumeEnableKey = some v)
    (htrue : strings_ToLower v = "true")
    (hinj : ext.ValidatePodHasSidecarContainerInjected pod true = false)
    (hcfg : prepareConfig ext si pod.Annotations = .ok config)
    (hparse : parseSidecarContainerImage ext pod = .ok (image, pod2)) :
    ∃ (mutated : Pod) (passed : Config),
      (Handle ext si req).pod = some mutated ∧
      mutated.Spec.Containers = ext.GetSidecarContainerSpec passed :: pod2.Spec.Containers ∧
      passed.ContainerImage = (if image ≠ "" then image else si.Config.ContainerImage) ∧
      passed.ImagePullPolicy = si.Config.ImagePullPolicy ∧
      ∀ f : ResourceField,
        passed.get f = Quantity_String ext (config.get f) ∧
        (passed.get f).i = (config.get f).i ∧
        (passed.get f).d = (config.get f).d ∧
        (passed.get f).Format = (config.get f).Format := by
  obtain ⟨_, _, _, himage, hpolicy, _⟩ := prepareConfig_ok ext si pod.Annotations config hcfg
  refine ⟨mutatedPod ext (logMutation ext (overrideImage config image)) pod2,
    logMutation ext (overrideImage config image), ?_, rfl, ?_, ?_, ?_⟩
  · rw [Handle_of_resolved ext si req pod pod2 v image config hdec hop hget htrue hinj hcfg
      hparse]
    split <;> rfl
  · show (overrideImage config image).ContainerImage = _
    unfold overrideImage
    split
    · rfl
    · exact himage
  · show (overrideImage config image).ImagePullPolicy = _
    unfold overrideImage
    split
    · exact hpolicy
    · exact hpolicy
  · intro f
    have hget : (logMutation ext (overrideImage config image)).get f =
        Quantity_String ext (config.get f) := by
      unfold overrideImage
      split <;> cases f <;> rfl
    rw [hget]
    refine ⟨rfl, ?_, ?_, ?_⟩ <;> (unfold Quantity_String; split <;> rfl)

theorem Handle_spec_config_witness :
    (podInjector sampleConfig placeholderPod).Decoder createRequest = .ok placeholderPod ∧
    placeholderPod.Annotations.get AnnotationGcsfuseVolumeEnableKey = some "true" ∧
    sampleExternals.ValidatePodHasSidecarContainerInjected placeholderPod true = false ∧
    prepareConfig sampleExternals (podInjector sampleConfig placeholderPod)
      placeholderPod.Annotations = .ok sampleResolved ∧
    parseSidecarContainerImage sampleExternals placeholderPod
      = .ok ("repo/img:tag", strippedPod) ∧
    ∃ (mutated : Pod) (passed : Config),
      (Handle sampleExternals (podInjector sampleConfig placeholderPod) createRequest).pod
        = some mutated ∧
      mutated.Spec.Containers
        = sampleExternals.GetSidecarContainerSpec passed :: strippedPod.Spec.Containers ∧
      passed.ContainerImage = "repo/img:tag" ∧
      passed.ImagePullPolicy = "IfNotPresent" ∧
      ∀ f : ResourceField,
        passed.get f = Quantity_String sampleExternals (sampleResolved.get f) ∧
        (passed.get f).i = (sampleResolved.get f).i ∧
        (passed.get f).d = (sampleResolved.get f).d ∧
        (passed.get f).Format = (sampleResolved.get f).Format :=
  ⟨rfl, by decide, by decide, rfl, rfl,
   Handle_spec_config sampleExternals (podInjector sampleConfig placeholderPod)
     createRequest placeholderPod strippedPod "true" "repo/img:tag" sampleResolved
     rfl rfl (by decide) (by decide) (by decide) rfl rfl⟩

/-! ## The placeholder container -/

/-- C12: when exactly one container carries the sidecar name, at position `i`,
and its image is not empty and passes the image check,
`parseSidecarContainerImage` returns that image with no error and leaves the
container list with the element at position `i` erased: the length drops by
one, the containers before position `i` keep their positions and those after
it move one place down, in their original order. -/
theorem parseSidecarContainerImage_single (ext : Externals) (pod : Pod) (i : Nat)
    (c : Container) (hi : pod.Spec.Containers[i]? = some c)
    (hname : c.Name = SidecarContainerName)
    (honly : ∀ j c', pod.Spec.Containers[j]? = some c' →
      c'.Name = SidecarContainerName → j = i)
    (himage : c.Image ≠ "") (hvalid : ext.ParseImageName c.Image = .ok ()) :
    parseSidecarContainerImage ext pod =
      .ok (c.Image, { pod with Spec := { pod.Spec with
        Containers := pod.Spec.Containers.eraseIdx i } }) ∧
    (pod.Spec.Containers.eraseIdx i).length + 1 = pod.Spec.Containers.length ∧
    (pod.Spec.Containers.eraseIdx i).Sublist pod.Spec.Containers ∧
    (∀ j, j < i → (pod.Spec.Containers.eraseIdx i)[j]? = pod.Spec.Containers[j]?) ∧
    (∀ j, i ≤ j → (pod.Spec.Containers.eraseIdx i)[j]? = pod.Spec.Containers[j + 1]?) := by
  have hlt : i < pod.Spec.Containers.length := (List.getElem?_eq_some.1 hi).1
  have hall : ∀ c' ∈ pod.Spec.Containers, c'.Name = SidecarContainerName →
      ∃ u, ext.ParseImageName c'.Image = .ok u := by
    intro c' hc' hn
    obtain ⟨j, hj⟩ := List.getElem?_of_mem hc'
    have hji := honly j c' hj hn
    subst hji
    rw [hi] at hj
    cases hj
    exact ⟨(), hvalid⟩
  have hlast : ∀ j c', i < j → pod.Spec.Containers[j]? = some c' →
      c'.Name ≠ SidecarContainerName := by
    intro j c' hij hj hn
    have := honly j c' hj hn
    omega
  refine ⟨?_, ?_, List.eraseIdx_sublist _ _, ?_, ?_⟩
  · rw [parseSidecarContainerImage_last_index ext pod i c hi hname hall hlast]
    simp [himage]
  · rw [List.length_eraseIdx]
    simp only [hlt, if_true]
    omega
  · intro j hj
    exact List.getElem?_eraseIdx_of_lt _ _ _ hj
  · intro j hj
    exact List.getElem?_eraseIdx_of_ge _ _ _ hj

theorem parseSidecarContainerImage_single_witness :
    placeholderPod.Spec.Containers[1]? = some ⟨SidecarContainerName, "repo/img:tag", ""⟩ ∧
    (∀ j c', placeholderPod.Spec.Containers[j]? = some c' →
      c'.Name = SidecarContainerName → j = 1) ∧
    sampleExternals.ParseImageName "repo/img:tag" = .ok () ∧
    parseSidecarContainerImage sampleExternals placeholderPod
      = .ok ("repo/img:tag", strippedPod) :=
  have honly : ∀ j c', placeholderPod.Spec.Containers[j]? = some c' →
      c'.Name = SidecarContainerName → j = 1 := by
    intro j c' hj hn
    match j with
    | 0 => simp [placeholderPod] at hj; subst hj; exact absurd hn (by decide)
    | 1 => rfl
    | 2 => simp [placeholderPod] at hj; subst hj; exact absurd hn (by decide)
    | (k + 3) => simp [placeholderPod] at hj
  ⟨rfl, honly, rfl,
   (parseSidecarContainerImage_single sampleExternals placeholderPod 1
      ⟨SidecarContainerName, "repo/img:tag", ""⟩ rfl rfl honly (by decide) rfl).1⟩

/-- C13: when no container carries the sidecar name, also when there is no
container at all, `parseSidecarContainerImage` returns the empty image and no
error and leaves the pod, and so its container list, as it was. -/
theorem parseSidecarContainerImage_no_placeholder (ext : Externals) (pod : Pod)
    (h : ∀ c ∈ pod.Spec.Containers, c.Name ≠ SidecarContainerName) :
    parseSidecarContainerImage ext pod = .ok ("", pod) :=
  parseSidecarContainerImage_of_no_match ext pod h

theorem parseSidecarContainerImage_no_placeholder_witness :
    (∀ c ∈ (samplePod []).Spec.Containers, c.Name ≠ SidecarContainerName) ∧
    parseSidecarContainerImage sampleExternals (samplePod []) = .ok ("", samplePod []) :=
  ⟨by decide,
   parseSidecarContainerImage_no_placeholder sampleExternals (samplePod []) (by decide)⟩

/-- C14: when some container that carries the sidecar name has an image that
the image check rejects, `parseSidecarContainerImage` returns an error, and
`Handle`, when it reaches that call, returns a response that is not allowed,
has status 400 and carries no patch, the pod being as it was decoded. -/
theorem parseSidecarContainerImage_invalid (ext : Externals) (pod : Pod)
    (h : ∃ c ∈ pod.Spec.Containers, c.Name = SidecarContainerName ∧
      ∃ e, ext.ParseImageName c.Image = .error e) :
    (∃ e, parseSidecarContainerImage ext pod = .error e) ∧
    ∀ (si : SidecarInjector) (req : Request) (v : String) (config : Config),
      si.Decoder req = .ok pod → req.Operation = v1_Create →
      pod.Annotations.get AnnotationGcsfuseVolumeEnableKey = some v →
      strings_ToLower v = "true" →
      ext.ValidatePodHasSidecarContainerInjected pod true = false →
      prepareConfig ext si pod.Annotations = .ok config →
      (Handle ext si req).response.Allowed = false ∧
      (Handle ext si req).response.Code = 400 ∧
      (Handle ext si req).response.Patches = [] ∧
      (Handle ext si req).pod = some pod := by
  obtain ⟨e, he⟩ := parseSidecarContainerImage_error_of_invalid ext pod h
  refine ⟨⟨e, he⟩, ?_⟩
  intro si req v config hdec hop hget htrue hinj hcfg
  rw [Handle_of_image_error ext si req pod v e config hdec hop hget htrue hinj hcfg he]
  exact ⟨rfl, rfl, rfl, rfl⟩

theorem parseSidecarContainerImage_invalid_witness :
    (∃ c ∈ invalidImagePod.Spec.Containers, c.Name = SidecarContainerName ∧
      ∃ e, sampleExternals.ParseImageName c.Image = .error e) ∧
    (∃ e, parseSidecarContainerImage sampleExternals invalidImagePod = .error e) ∧
    (Handle sampleExternals (podInjector sampleConfig invalidImagePod)
      createRequest).response.Allowed = false ∧
    (Handle sampleExternals (podInjector sampleConfig invalidImagePod)
      createRequest).response.Code = 400 ∧
    (Handle sampleExternals (podInjector sampleConfig invalidImagePod)
      createRequest).response.Patches = [] ∧
    (Handle sampleExternals (podInjector sampleConfig invalidImagePod)
      createRequest).pod = some invalidImagePod :=
  have hex : ∃ c ∈ invalidImagePod.Spec.Containers, c.Name = SidecarContainerName ∧
      ∃ e, sampleExternals.ParseImageName c.Image = .error e :=
    ⟨⟨SidecarContainerName, "???", ""⟩, by decide, rfl, _, rfl⟩
  have h := parseSidecarContainerImage_invalid sampleExternals invalidImagePod hex
  ⟨hex, h.1,
   h.2 (podInjector sampleConfig invalidImagePod) createRequest "true" sampleResolved
     rfl rfl (by decide) (by decide) (by decide) rfl⟩

/-- C15: when the annotations bind one of the six resource keys to a value
that the quantity parser rejects, `prepareConfig` returns an error, whatever
the other keys hold, and `Handle`, when it reaches that call, returns a
response that is not allowed, has status 400 and carries no patch. -/
theorem prepareConfig_malformed (ext : Externals) (si : SidecarInjector)
    (annotations : StringMap) (f : ResourceField) (v e : String)
    (hget : annotations.get f.jsonName = some v)
    (hbad : ext.UnmarshalQuantity v = .error e) :
    (∃ e', prepareConfig ext si annotations = .error e') ∧
    ∀ (req : Request) (pod : Pod) (w : String),
      si.Decoder req = .ok pod → pod.Annotations = annotations →
      req.Operation = v1_Create →
      pod.Annotations.get AnnotationGcsfuseVolumeEnableKey = some w →
      strings_ToLower w = "true" →
      ext.ValidatePodHasSidecarContainerInjected pod true = false →
      (Handle ext si req).response.Allowed = false ∧
      (Handle ext si req).response.Code = 400 ∧
      (Handle ext si req).response.Patches = [] ∧
      (Handle ext si req).pod = some pod := by
  have hk : lookupField f.jsonName ≠ none := by
    rw [lookupField_jsonName]
    exact Option.some_ne_none f
  obtain ⟨e', he'⟩ := prepareConfig_error_of_invalid ext si annotations f.jsonName v e hk
    hget hbad
  refine ⟨⟨e', he'⟩, ?_⟩
  intro req pod w hdec hann hop hen htrue hinj
  rw [← hann] at he'
  rw [Handle_of_config_error ext si req pod w e' hdec hop hen htrue hinj he']
  exact ⟨rfl, rfl, rfl, rfl⟩

theorem prepareConfig_malformed_witness :
    malformedPod.Annotations.get ResourceField.MemoryLimit.jsonName = some "lots" ∧
    malformedPod.Annotations.get ResourceField.CPULimit.jsonName = some "250m" ∧
    sampleExternals.UnmarshalQuantity "250m" = .ok q250m ∧
    (∃ e, sampleExternals.UnmarshalQuantity "lots" = .error e) ∧
    (∃ e, prepareConfig sampleExternals (podInjector sampleConfig malformedPod)
      malformedPod.Annotations = .error e) ∧
    (Handle sampleExternals (podInjector sampleConfig malformedPod)
      createRequest).response.Allowed = false ∧
    (Handle sampleExternals (podInjector sampleConfig malformedPod)
      createRequest).response.Code = 400 ∧
    (Handle sampleExternals (podInjector sampleConfig malformedPod)
      createRequest).response.Patches = [] ∧
    (Handle sampleExternals (podInjector sampleConfig malformedPod)
      createRequest).pod = some malformedPod :=
  have h := prepareConfig_malformed sampleExternals (podInjector sampleConfig malformedPod)
    malformedPod.Annotations ResourceField.MemoryLimit "lots"
    "quantities must match the regular expression" (by decide) rfl
  ⟨by decide, by decide, rfl, ⟨_, rfl⟩, h.1,
   h.2 createRequest malformedPod "true" rfl rfl rfl (by decide) (by decide) (by decide)⟩

/-- C18: when the container at position `i` is the last one that carries the
sidecar name and every container that carries it, of which there may be
several, has an image that is not empty and passes the image check,
`parseSidecarContainerImage` returns the image of the container at position
`i` and erases that container only: the length drops by one, every container
before position `i`, the earlier placeholders included, keeps its position,
and those after it move one place down. Every image of a container that
carries the name is checked: were one of them rejected, the call would
fail. -/
theorem parseSidecarContainerImage_duplicates (ext : Externals) (pod : Pod) (i : Nat)
    (c : Container) (hi : pod.Spec.Containers[i]? = some c)
    (hname : c.Name = SidecarContainerName)
    (hlast : ∀ j c', i < j → pod.Spec.Containers[j]? = some c' →
      c'.Name ≠ SidecarContainerName)
    (hvalid : ∀ c' ∈ pod.Spec.Containers, c'.Name = SidecarContainerName →
      c'.Image ≠ "" ∧ ext.ParseImageName c'.Image = .ok ()) :
    parseSidecarContainerImage ext pod =
      .ok (c.Image, { pod with Spec := { pod.Spec with
        Containers := pod.Spec.Containers.eraseIdx i } }) ∧
    (pod.Spec.Containers.eraseIdx i).length + 1 = pod.Spec.Containers.length ∧
    (∀ j, j < i → (pod.Spec.Containers.eraseIdx i)[j]? = pod.Spec.Containers[j]?) ∧
    (∀ j, i ≤ j → (pod.Spec.Containers.eraseIdx i)[j]? = pod.Spec.Containers[j + 1]?) ∧
    ∀ ext2 : Externals,
      (∃ c' ∈ pod.Spec.Containers, c'.Name = SidecarContainerName ∧
        ∃ e, ext2.ParseImageName c'.Image = .error e) →
      ∃ e, parseSidecarContainerImage ext2 pod = .error e := by
  have hlt : i < pod.Spec.Containers.length := (List.getElem?_eq_some.1 hi).1
  have hall : ∀ c' ∈ pod.Spec.Containers, c'.Name = SidecarContainerName →
      ∃ u, ext.ParseImageName c'.Image = .ok u :=
    fun c' hc' hn => ⟨(), (hvalid c' hc' hn).2⟩
  have himage : c.Image ≠ "" := (hvalid c (List.getElem?_mem hi) hname).1
  refine ⟨?_, ?_, ?_, ?_, ?_⟩
  · rw [parseSidecarContainerImage_last_index ext pod i c hi hname hall hlast]
    simp [himage]
  · rw [List.length_eraseIdx]
    simp only [hlt, if_true]
    omega
  · intro j hj
    exact List.getElem?_eraseIdx_of_lt _ _ _ hj
  · intro j hj
    exact List.getElem?_eraseIdx_of_ge _ _ _ hj
  · intro ext2 h
    exact parseSidecarContainerImage_error_of_invalid ext2 pod h

theorem parseSidecarContainerImage_duplicates_witness :
    duplicatePod.Spec.Containers[0]? = some ⟨SidecarContainerName, "old/img:1", ""⟩ ∧
    duplicatePod.Spec.Containers[2]? = some ⟨SidecarContainerName, "new/img:2", ""⟩ ∧
    parseSidecarContainerImage sampleExternals duplicatePod =
      .ok ("new/img:2", { duplicatePod with Spec := { duplicatePod.Spec with
        Containers := [⟨SidecarContainerName, "old/img:1", ""⟩, ⟨"first", "busybox", ""⟩,
          ⟨"second", "nginx", ""⟩] } }) :=
  have hlast : ∀ j c', 2 < j → duplicatePod.Spec.Containers[j]? = some c' →
      c'.Name ≠ SidecarContainerName := by
    intro j c' hj hget
    match j with
    | 0 => omega
    | 1 => omega
    | 2 => omega
    | 3 => simp [duplicatePod] at hget; subst hget; decide
    | (k + 4) => simp [duplicatePod] at hget
  have hvalid : ∀ c' ∈ duplicatePod.Spec.Containers, c'.Name = SidecarContainerName →
      c'.Image ≠ "" ∧ sampleExternals.ParseImageName c'.Image = .ok () := by
    intro c' hc' hn
    simp only [duplicatePod, List.mem_cons, List.mem_singleton, List.not_mem_nil,
      or_false] at hc'
    rcases hc' with rfl | rfl | rfl | rfl
    · exact ⟨by decide, rfl⟩
    · exact absurd hn (by decide)
    · exact ⟨by decide, rfl⟩
    · exact absurd hn (by decide)
  ⟨rfl, rfl,
   (parseSidecarContainerImage_duplicates sampleExternals duplicatePod 2
      ⟨SidecarContainerName, "new/img:2", ""⟩ rfl rfl hlast hvalid).1⟩

/-- C19: after `populateResource` the request and the limit are both set or
both unset, and they are unset exactly when the request, the limit and the two
defaults were all unset on entry; when neither request nor limit is set on
entry and exactly one default is set, both end equal to that default. -/
theorem populateResource_set_iff (rq lq drq dlq : Quantity) :
    ((populateResource rq lq drq dlq).1.Format = "" ↔
      (populateResource rq lq drq dlq).2.Format = "") ∧
    ((populateResource rq lq drq dlq).1.Format = "" ↔
      (rq.Format = "" ∧ lq.Format = "" ∧ drq.Format = "" ∧ dlq.Format = "")) ∧
    (rq.Format = "" → lq.Format = "" → drq.Format ≠ "" → dlq.Format = "" →
      populateResource rq lq drq dlq = (drq, drq)) ∧
    (rq.Format = "" → lq.Format = "" → drq.Format = "" → dlq.Format ≠ "" →
      populateResource rq lq drq dlq = (dlq, dlq)) := by
  by_cases h1 : rq.Format = "" <;> by_cases h2 : lq.Format = "" <;>
    by_cases h3 : drq.Format = "" <;> by_cases h4 : dlq.Format = "" <;>
    simp_all [populateResource]

theorem populateResource_set_iff_witness :
    Quantity.zero.Format = "" ∧ q1Gi.Format ≠ "" ∧
    populateResource Quantity.zero Quantity.zero Quantity.zero q1Gi = (q1Gi, q1Gi) :=
  ⟨by decide, by decide,
   (populateResource_set_iff Quantity.zero Quantity.zero Quantity.zero q1Gi).2.2.2
     (by decide) (by decide) (by decide) (by decide)⟩

/-- C20: a successful `parseSidecarContainerImage` leaves the pod as it was or
erases one container that carries the sidecar name and has an image that is
not empty, so a container with the empty image is never removed, whatever the
image check is. When the last container that carries the sidecar name has the
empty image: under an image check that rejects the empty image, as
`parsers.ParseImageName` does, the check of the empty image fails and the call
returns an error; under an image check that accepts the empty image and the
images of the earlier containers that carry the name, the call succeeds,
returns the empty image and leaves the pod as it was, whatever those earlier
images are; and under every image check the call either returns an error or
succeeds with the empty image and the pod as it was. -/
theorem parseSidecarContainerImage_empty_image (ext : Externals) (pod : Pod) :
    (∀ image pod2, parseSidecarContainerImage ext pod = .ok (image, pod2) →
      pod2 = pod ∨
      ∃ i c, pod.Spec.Containers[i]? = some c ∧ c.Name = SidecarContainerName ∧
        c.Image ≠ "" ∧
        pod2 = { pod with Spec := { pod.Spec with
          Containers := pod.Spec.Containers.eraseIdx i } }) ∧
    (∀ (i : Nat) (c : Container),
      pod.Spec.Containers[i]? = some c → c.Name = SidecarContainerName →
      c.Image = "" →
      (∀ (j : Nat) (c' : Container), i < j → pod.Spec.Containers[j]? = some c' →
        c'.Name ≠ SidecarContainerName) →
      ((∃ e, ext.ParseImageName "" = .error e) →
        ((∃ e, ext.ParseImageName "" = .error e) ∧
          ∃ e, parseSidecarContainerImage ext pod = .error e)) ∧
      ((∀ c' ∈ pod.Spec.Containers, c'.Name = SidecarContainerName →
          ∃ u, ext.ParseImageName c'.Image = .ok u) →
        parseSidecarContainerImage ext pod = .ok ("", pod)) ∧
      ((∃ e, parseSidecarContainerImage ext pod = .error e) ∨
        parseSidecarContainerImage ext pod = .ok ("", pod))) := by
  constructor
  · intro image pod2 h
    rcases parseSidecarContainerImage_ok_cases ext pod pod2 image h with
      ⟨_, h2⟩ | ⟨hne, i, c, hi, hn, him, h2⟩
    · exact Or.inl h2
    · exact Or.inr ⟨i, c, hi, hn, by rw [him]; exact hne, h2⟩
  · intro i c hi hname himage hlast
    have hvalid_ok : (∀ c' ∈ pod.Spec.Containers, c'.Name = SidecarContainerName →
        ∃ u, ext.ParseImageName c'.Image = .ok u) →
        parseSidecarContainerImage ext pod = .ok ("", pod) := by
      intro hvalid
      rw [parseSidecarContainerImage_last_index ext pod i c hi hname hvalid hlast]
      simp [himage]
    refine ⟨?_, hvalid_ok, ?_⟩
    · rintro ⟨e, he⟩
      exact ⟨⟨e, he⟩, parseSidecarContainerImage_error_of_invalid ext pod
        ⟨c, List.getElem?_mem hi, hname, e, by rw [himage]; exact he⟩⟩
    · by_cases hall : ∀ c' ∈ pod.Spec.Containers, c'.Name = SidecarContainerName →
          ∃ u, ext.ParseImageName c'.Image = .ok u
      · exact Or.inr (hvalid_ok hall)
      · refine Or.inl (parseSidecarContainerImage_error_of_invalid ext pod ?_)
        simp only [not_forall] at hall
        obtain ⟨c', hc', hn', hnot⟩ := hall
        refine ⟨c', hc', hn', ?_⟩
        cases hp : ext.ParseImageName c'.Image with
        | error e => exact ⟨e, rfl⟩
        | ok u => exact absurd ⟨u, hp⟩ hnot

theorem parseSidecarContainerImage_empty_image_witness :
    emptyLastPod.Spec.Containers[0]? = some ⟨SidecarContainerName, "old/img:1", ""⟩ ∧
    emptyLastPod.Spec.Containers[2]? = some ⟨SidecarContainerName, "", ""⟩ ∧
    emptyLastPod.Spec.Containers.length = 3 ∧
    (∃ e, sampleExternals.ParseImageName "" = .error e) ∧
    (∃ e, parseSidecarContainerImage sampleExternals emptyLastPod = .error e) ∧
    parseSidecarContainerImage lenientExternals emptyLastPod = .ok ("", emptyLastPod) :=
  have hlast : ∀ (j : Nat) (c' : Container), 2 < j →
      emptyLastPod.Spec.Containers[j]? = some c' → c'.Name ≠ SidecarContainerName := by
    intro j c' hj hget
    match j with
    | 0 => omega
    | 1 => omega
    | 2 => omega
    | (k + 3) => simp [emptyLastPod] at hget
  have hvalid : ∀ c' ∈ emptyLastPod.Spec.Containers, c'.Name = SidecarContainerName →
      ∃ u, lenientExternals.ParseImageName c'.Image = .ok u := by
    intro c' hc' _
    simp only [emptyLastPod, List.mem_cons, List.mem_singleton, List.not_mem_nil,
      or_false] at hc'
    rcases hc' with rfl | rfl | rfl
    · exact ⟨(), rfl⟩
    · exact ⟨(), rfl⟩
    · exact ⟨(), rfl⟩
  have hstrict := ((parseSidecarContainerImage_empty_image sampleExternals emptyLastPod).2 2
    ⟨SidecarContainerName, "", ""⟩ rfl rfl rfl hlast).1 ⟨_, rfl⟩
  ⟨rfl, rfl, rfl, hstrict.1, hstrict.2,
   ((parseSidecarContainerImage_empty_image lenientExternals emptyLastPod).2 2
      ⟨SidecarContainerName, "", ""⟩ rfl rfl rfl hlast).2.1 hvalid⟩

/-! ## Rejected requests -/

/-- C17, as stated, fails: when marshalling the mutated pod fails, `Handle`
returns a response that is not allowed, with status 400 and no patch, and the
pod it holds has lost its placeholder and gained the sidecar container and the
sidecar volume; and when `PatchResponseFromRaw` answers with status 500,
`Handle` returns that response, which is not allowed and has not status
400. -/
theorem Handle_marshal_failure_counterexample :
    (podInjector sampleConfig placeholderPod).Decoder createRequest = .ok placeholderPod ∧
    (Handle failingMarshalExternals (podInjector sampleConfig placeholderPod)
      createRequest).response = admission_Errored 400 ∧
    (∃ p, (Handle failingMarshalExternals (podInjector sampleConfig placeholderPod)
        createRequest).pod = some p ∧
      p.Spec.Containers =
        [⟨SidecarContainerName, "repo/img:tag", "IfNotPresent 100m 250m"⟩,
         ⟨"first", "busybox", ""⟩, ⟨"second", "nginx", ""⟩] ∧
      p.Spec.Containers ≠ placeholderPod.Spec.Containers ∧
      p.Spec.Volumes = [sampleSidecarVolume, ⟨"data", "csi"⟩] ∧
      p.Spec.Volumes ≠ placeholderPod.Spec.Volumes) ∧
    (Handle failingPatchExternals (podInjector sampleConfig placeholderPod)
      createRequest).response.Allowed = false ∧
    (Handle failingPatchExternals (podInjector sampleConfig placeholderPod)
      createRequest).response.Code = 500 :=
  ⟨rfl, rfl, ⟨_, rfl, rfl, by decide, rfl, by decide⟩, rfl, rfl⟩

/-- C17, amended: a response of `Handle` that is not allowed either is the one
`PatchResponseFromRaw` returned for the marshalled pod, or has status 400 and
no patch. In the latter case the request did not decode, or the pod is as it
was decoded, or marshalling failed, and then the pod that `Handle` holds is the
mutated one: placeholder erased, sidecar container and volume in front. -/
theorem Handle_rejected (ext : Externals) (si : SidecarInjector) (req : Request)
    (h : (Handle ext si req).response.Allowed = false) :
    (∃ (config : Config) (pod2 : Pod) (marshaledPod : List Nat),
      ext.MarshalPod (mutatedPod ext config pod2) = .ok marshaledPod ∧
      Handle ext si req =
        ⟨ext.PatchResponseFromRaw req.ObjectRaw marshaledPod,
          some (mutatedPod ext config pod2)⟩) ∨
    ((Handle ext si req).response.Code = 400 ∧
     (Handle ext si req).response.Patches = [] ∧
     ((∃ e, si.Decoder req = .error e ∧ (Handle ext si req).pod = none) ∨
      (∃ pod, si.Decoder req = .ok pod ∧ (Handle ext si req).pod = some pod) ∨
      (∃ (pod pod2 : Pod) (config : Config) (image e : String),
        si.Decoder req = .ok pod ∧
        prepareConfig ext si pod.Annotations = .ok config ∧
        parseSidecarContainerImage ext pod = .ok (image, pod2) ∧
        ext.MarshalPod
          (mutatedPod ext (logMutation ext (overrideImage config image)) pod2) = .error e ∧
        (Handle ext si req).pod =
          some (mutatedPod ext (logMutation ext (overrideImage config image)) pod2)))) := by
  cases hdec : si.Decoder req with
  | error e =>
    refine Or.inr ?_
    simp [Handle, hdec, admission_Errored, http_StatusBadRequest]
  | ok pod =>
    by_cases hop : req.Operation = v1_Create
    · cases hget : pod.Annotations.get AnnotationGcsfuseVolumeEnableKey with
      | none => simp [Handle, hdec, hop, hget, admission_Allowed] at h
      | some v =>
        by_cases hfalse : strings_ToLower v = "false"
        · simp [Handle, hdec, hop, hget, hfalse, admission_Allowed] at h
        · by_cases htrue : strings_ToLower v = "true"
          · cases hinj : ext.ValidatePodHasSidecarContainerInjected pod true with
            | true =>
              simp [Handle, hdec, hop, hget, hfalse, htrue, hinj, admission_Allowed] at h
            | false =>
              cases hcfg : prepareConfig ext si pod.Annotations with
              | error e =>
                refine Or.inr ?_
                rw [Handle_of_config_error ext si req pod v e hdec hop hget htrue hinj hcfg]
                exact ⟨rfl, rfl, Or.inr (Or.inl ⟨pod, rfl, rfl⟩)⟩
              | ok config =>
                cases hparse : parseSidecarContainerImage ext pod with
                | error e =>
                  refine Or.inr ?_
                  rw [Handle_of_image_error ext si req pod v e config hdec hop hget htrue
                    hinj hcfg hparse]
                  exact ⟨rfl, rfl, Or.inr (Or.inl ⟨pod, rfl, rfl⟩)⟩
                | ok res =>
                  obtain ⟨image, pod2⟩ := res
                  have hstep := Handle_of_resolved ext si req pod pod2 v image config hdec
                    hop hget htrue hinj hcfg hparse
                  cases hm : ext.MarshalPod
                    (mutatedPod ext (logMutation ext (overrideImage config image)) pod2) with
                  | error e =>
                    refine Or.inr ?_
                    rw [hm] at hstep
                    rw [hstep]
                    exact ⟨rfl, rfl, Or.inr (Or.inr ⟨pod, pod2, config, image, e, rfl, hcfg,
                      hparse, hm, rfl⟩)⟩
                  | ok b =>
                    refine Or.inl ⟨logMutation ext (overrideImage config image), pod2, b,
                      hm, ?_⟩
                    rw [hm] at hstep
                    exact hstep
          · refine Or.inr ?_
            simp [Handle, hdec, hop, hget, hfalse, htrue, admission_Errored,
              http_StatusBadRequest]
    · simp [Handle, hdec, hop, admission_Allowed] at h

theorem Handle_rejected_witness :
    (Handle sampleExternals (podInjector sampleConfig invalidImagePod)
      createRequest).response.Allowed = false ∧
    (Handle sampleExternals (podInjector sampleConfig invalidImagePod)
      createRequest).response.Code = 400 ∧
    (Handle sampleExternals (podInjector sampleConfig invalidImagePod)
      createRequest).response.Patches = [] ∧
    (Handle sampleExternals (podInjector sampleConfig invalidImagePod)
      createRequest).pod = some invalidImagePod :=
  have h := Handle_rejected sampleExternals (podInjector sampleConfig invalidImagePod)
    createRequest rfl
  ⟨rfl, h.elim (fun hp => hp.elim fun _ hp => hp.elim fun _ hp => hp.elim fun _ hp =>
      absurd (show false = true from
        congrArg (fun r : HandleResult => r.response.Allowed) hp.2) (by decide))
      (fun hr => hr.1),
    rfl, rfl⟩

/-! ## Keys outside the recognized set -/

/-- C16, as stated, fails: the empty annotation set and the set whose only key
is `gke-gcsfuse/CPU-limit`, which is none of the six resource keys, agree on
the six resource keys, yet `prepareConfig` succeeds on the first and fails on
the second. -/
theorem prepareConfig_folded_key_counterexample :
    (∀ f : ResourceField,
      StringMap.get [] f.jsonName = StringMap.get foldedAnnotations f.jsonName) ∧
    (∀ f : ResourceField, ("gke-gcsfuse/CPU-limit" : String) ≠ f.jsonName) ∧
    (∃ cfg, prepareConfig sampleExternals (sampleInjector sampleConfig) [] = .ok cfg) ∧
    (∃ e, prepareConfig sampleExternals (sampleInjector sampleConfig) foldedAnnotations
      = .error e) := by
  refine ⟨?_, ?_, ⟨_, rfl⟩, ⟨_, rfl⟩⟩
  · intro f
    cases f <;> decide
  · intro f
    cases f <;> decide

/-- C16, amended: two annotation sets that agree on every key that equals one
of the six resource keys up to case folding get the same outcome from
`prepareConfig`, the same configuration or the same error; the other keys,
among them the enable key, are not looked at. -/
theorem prepareConfig_ignores_other_keys (ext : Externals) (si : SidecarInjector)
    (a1 a2 : StringMap)
    (h : ∀ k : String, (∃ f : ResourceField, foldName f.jsonName = foldName k) →
      a1.get k = a2.get k) :
    prepareConfig ext si a1 = prepareConfig ext si a2 ∧
    ¬ ∃ f : ResourceField,
      foldName f.jsonName = foldName AnnotationGcsfuseVolumeEnableKey := by
  constructor
  · exact prepareConfig_congr ext si a1 a2
      (fun k hk => h k ((lookupField_ne_none_iff k).1 hk))
  · rintro ⟨f, hf⟩
    revert hf
    cases f <;> decide

theorem prepareConfig_ignores_other_keys_witness :
    sampleAnnotations.get AnnotationGcsfuseVolumeEnableKey = some "true" ∧
    otherAnnotations.get AnnotationGcsfuseVolumeEnableKey = some "false" ∧
    otherAnnotations.get "example.com/owner" = some "lots" ∧
    prepareConfig sampleExternals (sampleInjector sampleConfig) sampleAnnotations
      = .ok sampleResolved ∧
    prepareConfig sampleExternals (sampleInjector sampleConfig) sampleAnnotations
      = prepareConfig sampleExternals (sampleInjector sampleConfig) otherAnnotations :=
  have h : ∀ k : String, (∃ f : ResourceField, foldName f.jsonName = foldName k) →
      sampleAnnotations.get k = otherAnnotations.get k := by
    rintro k ⟨f, hf⟩
    by_cases h1 : k = "gke-gcsfuse/volumes"
    · subst h1
      revert hf
      cases f <;> decide
    · by_cases h2 : k = "example.com/owner"
      · subst h2
        revert hf
        cases f <;> decide
      · by_cases h3 : k = "gke-gcsfuse/memory-limit"
        · subst h3
          decide
        · have e1 : ¬ "gke-gcsfuse/volumes" = k := fun e => h1 e.symm
          have e2 : ¬ "example.com/owner" = k := fun e => h2 e.symm
          have e3 : ¬ "gke-gcsfuse/memory-limit" = k := fun e => h3 e.symm
          simp [sampleAnnotations, otherAnnotations, StringMap.get, e1, e2, e3]
  ⟨by decide, by decide, by decide, rfl,
   (prepareConfig_ignores_other_keys sampleExternals (sampleInjector sampleConfig)
      sampleAnnotations otherAnnotations h).1⟩

end Webhook
